import Mathlib

/-
Verification of the muindb multi-source genre classification system.

The development shallowly embeds the algorithmic core of the repository:

* `phase2/src/api/enhanced_genius_client.py` — title cleaning, search-query
  generation and fuzzy title/artist matching (`EnhancedGeniusClient`);
* `phase3/scripts/genre_classification_system.py` — the multi-source
  reasoning engine, crossover detection and the idempotence short-circuit
  (`GenreClassificationSystem`);
* `phase3/src/ml_subgenre_classifier.py` together with
  `phase3/training/subgenre_definitions.py` — the rule-based subgenre
  classifier (`MLSubgenreClassifier`);
* `phase3/src/api/producer_genre_patterns.py` — the producer signature
  enrichment (`ProducerGenrePatterns`).

Python strings are modelled over their character lists (ASCII fragment:
the repository's inputs and tables are ASCII), Python floats as exact
rationals `ℚ`, Python dicts as insertion-ordered association lists, and the
regular expressions of the source are transliterated pattern-for-pattern
into a small backtracking matcher (`Re`) with Python's leftmost /
greedy-versus-lazy match order.  `fuzzywuzzy.fuzz.ratio` is modelled with
its python-Levenshtein backend: 100 for equal strings, otherwise the
rounded indel-distance similarity.  CPython's set iteration order (hash
randomized per process) is modelled by an explicit enumeration-order
parameter where the source builds `list(set(...))`.
-/

set_option allowUnsafeReducibility true
attribute [local semireducible] Rat.ofScientific Rat.mul Rat.inv Rat.add Rat.sub Rat.div Rat.normalize

namespace PyStr

/-- ASCII whitespace characters recognized by Python's `\s` and `str.strip()`
    (ASCII fragment). -/
def isPyWs (c : Char) : Bool :=
  c == ' ' || c == '\t' || c == '\n' || c == '\r' || c == '\x0b' || c == '\x0c'

/-- ASCII word characters, Python's `\w` (ASCII fragment): letters, digits,
    underscore. -/
def isWordChar (c : Char) : Bool :=
  ('a' ≤ c && c ≤ 'z') || ('A' ≤ c && c ≤ 'Z') || ('0' ≤ c && c ≤ '9') || c == '_'

/-- Python `str.strip()` on a char list. -/
def stripChars (l : List Char) : List Char :=
  ((l.dropWhile isPyWs).reverse.dropWhile isPyWs).reverse

/-- Python `str.strip()`. -/
def pyStrip (s : String) : String := String.mk (stripChars s.data)

/-- Python `str.lower()` (ASCII fragment), defined over the char list so that
    it evaluates by kernel reduction. -/
def pyLower (s : String) : String := String.mk (s.data.map Char.toLower)

/-- Prefix of `s` before the first occurrence of separator char `c`
    (Python `s.split(c)[0]`). -/
def splitFirst (c : Char) (s : String) : String :=
  String.mk (s.data.takeWhile (fun d => d != c))

/-- Is every character ASCII whitespace (so Python would treat the string as
    empty after stripping)? Includes the empty string. -/
def wsOnly (s : String) : Bool := s.data.all isPyWs

end PyStr

namespace Re

open PyStr

/-- Regular-expression ASTs covering exactly the constructs used by the
    repository's patterns: character classes, sequencing, alternation,
    greedy/lazy star, greedy option, word boundary `\b`, anchors `^`/`$`. -/
inductive RE where
  | emp : RE
  | cls (p : Char → Bool) : RE
  | seq (a b : RE) : RE
  | alt (a b : RE) : RE
  | starG (a : RE) : RE
  | starL (a : RE) : RE
  | optG (a : RE) : RE
  | bnd : RE
  | bos : RE
  | eos : RE

/-- Word boundary test: `prev` is the character just before the current
    position (`none` at the string start). -/
def atBoundary (prev : Option Char) (s : List Char) : Bool :=
  let l := match prev with | none => false | some c => isWordChar c
  let r := match s with | [] => false | c :: _ => isWordChar c
  l != r

/-- Python `$` without MULTILINE: end of string, or just before a final
    newline. -/
def atEos (s : List Char) : Bool :=
  match s with
  | [] => true
  | ['\n'] => true
  | _ => false

/-- Backtracking matcher in continuation-passing style, mirroring the
    leftmost/backtracking match order of Python's `re` (a greedy star tries
    the longest continuation first, a lazy star the shortest). `prev` carries
    the previous character for `\b`/`^`; the fuel bounds recursion depth
    (cutting off empty star iterations, which does not change which matches
    exist). -/
def mrun (fuel : Nat) (r : RE) (prev : Option Char) (s : List Char)
    (k : Option Char → List Char → Option (List Char)) : Option (List Char) :=
  match fuel with
  | 0 => none
  | fuel + 1 =>
    match r with
    | .emp => k prev s
    | .cls p =>
      match s with
      | [] => none
      | c :: rest => if p c then k (some c) rest else none
    | .seq a b => mrun fuel a prev s (fun p' s' => mrun fuel b p' s' k)
    | .alt a b =>
      match mrun fuel a prev s k with
      | some res => some res
      | none => mrun fuel b prev s k
    | .starG a =>
      match mrun fuel a prev s (fun p' s' => mrun fuel (.starG a) p' s' k) with
      | some res => some res
      | none => k prev s
    | .starL a =>
      match k prev s with
      | some res => some res
      | none => mrun fuel a prev s (fun p' s' => mrun fuel (.starL a) p' s' k)
    | .optG a =>
      match mrun fuel a prev s k with
      | some res => some res
      | none => k prev s
    | .bnd => if atBoundary prev s then k prev s else none
    | .bos => match prev with | none => k prev s | some _ => none
    | .eos => if atEos s then k prev s else none

/-- Generous fuel for matching against a suffix of length `n` (the
    repository's patterns are star-height one, so depth is linear). -/
def fuelFor (n : Nat) : Nat := 4 * n + 200

/-- Try to match `r` at the current position; returns the suffix after the
    (backtracking-first) match. -/
def matchHere (r : RE) (prev : Option Char) (s : List Char) : Option (List Char) :=
  mrun (fuelFor s.length) r prev s (fun _ rest => some rest)

/-- `re.sub(r, repl, s)`: scan left to right, replacing each leftmost
    non-overlapping match. An empty match emits the replacement and advances
    one character (Python ≥ 3.7 semantics). -/
def subAux (fuel : Nat) (r : RE) (repl : List Char) (prev : Option Char)
    (s : List Char) : List Char :=
  match fuel with
  | 0 => s
  | fuel + 1 =>
    match matchHere r prev s with
    | some rest =>
      if rest.length = s.length then
        match s with
        | [] => repl
        | c :: t => repl ++ c :: subAux fuel r repl (some c) t
      else
        let consumed := s.length - rest.length
        let prev' := (s.take consumed).getLast?
        repl ++ subAux fuel r repl prev' rest
    | none =>
      match s with
      | [] => []
      | c :: t => c :: subAux fuel r repl (some c) t

/-- `re.sub` on strings. -/
def reSub (r : RE) (repl : String) (s : String) : String :=
  String.mk (subAux (s.data.length + 1) r repl.data none s.data)

/-- Start index of the leftmost match of `r`, if any (`re.search(...).start()`). -/
def findStartAux (fuel : Nat) (r : RE) (prev : Option Char) (s : List Char)
    (pos : Nat) : Option Nat :=
  match fuel with
  | 0 => none
  | fuel + 1 =>
    match matchHere r prev s with
    | some _ => some pos
    | none =>
      match s with
      | [] => none
      | c :: t => findStartAux fuel r (some c) t (pos + 1)

/-- `re.search` position on strings. -/
def reFindStart (r : RE) (s : String) : Option Nat :=
  findStartAux (s.data.length + 1) r none s.data 0

/-- Pattern combinators used to transliterate the source regexes. -/
def rSeq (l : List RE) : RE := l.foldr RE.seq RE.emp

/-- Case-sensitive literal character. -/
def lit (c : Char) : RE := RE.cls (fun d => d == c)

/-- Case-insensitive literal character (`re.IGNORECASE`). -/
def litCI (c : Char) : RE := RE.cls (fun d => d.toLower == c.toLower)

/-- Case-insensitive literal string. -/
def rStrCI (s : String) : RE := rSeq (s.data.map litCI)

/-- `\s`. -/
def ws : RE := RE.cls isPyWs

/-- `\s*`. -/
def wsStar : RE := RE.starG ws

/-- `\s+`. -/
def wsPlus : RE := RE.seq ws wsStar

/-- `.` (any char except newline). -/
def dot : RE := RE.cls (fun c => c != '\n')

/-- `.*` (greedy). -/
def dotStarG : RE := RE.starG dot

/-- `.*?` (lazy). -/
def dotStarL : RE := RE.starL dot

/-- `x+` (greedy). -/
def plusG (a : RE) : RE := RE.seq a (RE.starG a)

/-- Can `r` match some (possibly empty) all-whitespace string? Used to show
    that the cleaning patterns cannot fire inside whitespace-only input:
    every pattern below requires a parenthesis, hyphen or letter. -/
def okWs : RE → Bool
  | .emp => true
  | .cls p => [' ', '\t', '\n', '\r', '\x0b', '\x0c'].any p
  | .seq a b => okWs a && okWs b
  | .alt a b => okWs a || okWs b
  | .starG _ => true
  | .starL _ => true
  | .optG _ => true
  | .bnd => false
  | .bos => true
  | .eos => true

end Re

namespace Fuzz

/-- Weighted Levenshtein distance with insertions/deletions of cost 1 and
    substitutions of cost 2 (the distance underlying python-Levenshtein's
    `ratio`); equals `len a + len b - 2 * LCS(a, b)`. Row-based DP. -/
def lev2 (a b : List Char) : Nat :=
  let rec go (c : Char) : List Char → List Nat → Nat → List Nat
    | bc :: bs, dDiag :: dUp :: rest, left =>
      let cur := Nat.min (Nat.min (dDiag + (if c == bc then 0 else 2)) (dUp + 1)) (left + 1)
      cur :: go c bs (dUp :: rest) cur
    | _, _, _ => []
  let step : List Nat → Char → List Nat := fun row c =>
    match row with
    | [] => []
    | d0 :: _ => (d0 + 1) :: go c b row (d0 + 1)
  let firstRow := List.range (b.length + 1)
  (a.foldl step firstRow).getLastD 0

/-- Round-half-even of `num / den` (Python's `round`), for `den > 0`. -/
def roundHE (num den : Nat) : Nat :=
  let q := num / den
  let r := num % den
  if 2 * r < den then q
  else if 2 * r > den then q + 1
  else if q % 2 == 0 then q else q + 1

/-- `fuzzywuzzy.fuzz.ratio` backed by python-Levenshtein: 100 for equal
    strings (the `check_for_equal` decorator; plain difflib also yields 1.0
    on two empty strings), otherwise
    `round(100 * (lensum - dist) / lensum)` with `dist` the weighted edit
    distance above. -/
def fuzzScore (a b : String) : Nat :=
  if a == b then 100
  else
    let lensum := a.data.length + b.data.length
    if lensum == 0 then 100
    else roundHE (100 * (lensum - lev2 a.data b.data)) lensum

end Fuzz

namespace EnhancedGeniusClient

open Re PyStr Fuzz

/-- `suffixes_to_remove`: the 21 title-cleaning patterns of
    `EnhancedGeniusClient.__init__`, transliterated one-for-one (all applied
    with `re.IGNORECASE`). -/
def suffixes_to_remove : List RE := [
  -- r'\s*\(with\s+.*?\)'
  rSeq [wsStar, lit '(', rStrCI "with", wsPlus, dotStarL, lit ')'],
  -- r'\s*\(feat\.?\s+.*?\)'
  rSeq [wsStar, lit '(', rStrCI "feat", RE.optG (lit '.'), wsPlus, dotStarL, lit ')'],
  -- r'\s*\(featuring\s+.*?\)'
  rSeq [wsStar, lit '(', rStrCI "featuring", wsPlus, dotStarL, lit ')'],
  -- r'\s*\(ft\.?\s+.*?\)'
  rSeq [wsStar, lit '(', rStrCI "ft", RE.optG (lit '.'), wsPlus, dotStarL, lit ')'],
  -- r'\s*\(f/\s+.*?\)'
  rSeq [wsStar, lit '(', rStrCI "f", lit '/', wsPlus, dotStarL, lit ')'],
  -- r'\s*\(x\s+.*?\)'
  rSeq [wsStar, lit '(', rStrCI "x", wsPlus, dotStarL, lit ')'],
  -- r'\s*-\s*Remastered.*$'
  rSeq [wsStar, lit '-', wsStar, rStrCI "remastered", dotStarG, RE.eos],
  -- r'\s*\(Remastered.*?\)'
  rSeq [wsStar, lit '(', rStrCI "remastered", dotStarL, lit ')'],
  -- r'\s*-\s*.*?Remaster.*$'
  rSeq [wsStar, lit '-', wsStar, dotStarL, rStrCI "remaster", dotStarG, RE.eos],
  -- r'\s*-\s*.*?Version.*$'
  rSeq [wsStar, lit '-', wsStar, dotStarL, rStrCI "version", dotStarG, RE.eos],
  -- r'\s*\(.*?Version.*?\)'
  rSeq [wsStar, lit '(', dotStarL, rStrCI "version", dotStarL, lit ')'],
  -- r'\s*-\s*From\s+".*?".*$'
  rSeq [wsStar, lit '-', wsStar, rStrCI "from", wsPlus, lit '"', dotStarL, lit '"', dotStarG, RE.eos],
  -- r'\s*\(From\s+".*?".*?\)'
  rSeq [wsStar, lit '(', rStrCI "from", wsPlus, lit '"', dotStarL, lit '"', dotStarL, lit ')'],
  -- r'\s*-\s*featured\s+in.*$'
  rSeq [wsStar, lit '-', wsStar, rStrCI "featured", wsPlus, rStrCI "in", dotStarG, RE.eos],
  -- r'\s*\(featured\s+in.*?\)'
  rSeq [wsStar, lit '(', rStrCI "featured", wsPlus, rStrCI "in", dotStarL, lit ')'],
  -- r'\s*-\s*From\s+the.*$'
  rSeq [wsStar, lit '-', wsStar, rStrCI "from", wsPlus, rStrCI "the", dotStarG, RE.eos],
  -- r'\s*\(From\s+the.*?\)'
  rSeq [wsStar, lit '(', rStrCI "from", wsPlus, rStrCI "the", dotStarL, lit ')'],
  -- r'\s*-\s*.*?Radio.*$'
  rSeq [wsStar, lit '-', wsStar, dotStarL, rStrCI "radio", dotStarG, RE.eos],
  -- r'\s*\(.*?Radio.*?\)'
  rSeq [wsStar, lit '(', dotStarL, rStrCI "radio", dotStarL, lit ')'],
  -- r'\s*-\s*.*?Mix.*$'
  rSeq [wsStar, lit '-', wsStar, dotStarL, rStrCI "mix", dotStarG, RE.eos],
  -- r'\s*\(.*?Mix.*?\)'
  rSeq [wsStar, lit '(', dotStarL, rStrCI "mix", dotStarL, lit ')']]

/-- The censorship replacements of `clean_title_for_search`:
    `\bb\*+h\b -> bitch`, `\ba\*+\b -> ass`, `\bs\*+t\b -> shit`,
    `\bf\*+k\b -> fuck`, `\bn\*+a\b -> nigga` (IGNORECASE). -/
def censorshipSubs : List (RE × String) := [
  (rSeq [RE.bnd, litCI 'b', plusG (lit '*'), litCI 'h', RE.bnd], "bitch"),
  (rSeq [RE.bnd, litCI 'a', plusG (lit '*'), RE.bnd], "ass"),
  (rSeq [RE.bnd, litCI 's', plusG (lit '*'), litCI 't', RE.bnd], "shit"),
  (rSeq [RE.bnd, litCI 'f', plusG (lit '*'), litCI 'k', RE.bnd], "fuck"),
  (rSeq [RE.bnd, litCI 'n', plusG (lit '*'), litCI 'a', RE.bnd], "nigga")]

/-- `re.sub(r'\s+', ' ', .)` (whitespace normalization). -/
def collapseWs (s : String) : String := reSub wsPlus " " s

/-- `EnhancedGeniusClient.clean_title_for_search`. -/
def clean_title_for_search (title : String) : String :=
  let cleaned := suffixes_to_remove.foldl (fun acc pat => reSub pat "" acc) title
  let cleaned := censorshipSubs.foldl (fun acc pr => reSub pr.1 pr.2 acc) cleaned
  pyStrip (collapseWs cleaned)

/-- `r'\s+(feat\.?|featuring|ft\.?|with|f/)\s+.*$'` — the featuring-clause
    removal applied to artist names (IGNORECASE). -/
def featClausePat : RE :=
  rSeq [wsPlus,
    RE.alt (RE.seq (rStrCI "feat") (RE.optG (lit '.')))
      (RE.alt (rStrCI "featuring")
        (RE.alt (RE.seq (rStrCI "ft") (RE.optG (lit '.')))
          (RE.alt (rStrCI "with") (RE.seq (rStrCI "f") (lit '/'))))),
    wsPlus, dotStarG, RE.eos]

/-- Main-artist extraction in `generate_search_queries`:
    `artist.split(",")[0].split("&")[0].strip()`, then the featuring-clause
    substitution, then `strip()`. -/
def mainArtistOf (artist : String) : String :=
  let m := pyStrip (splitFirst '&' (splitFirst ',' artist))
  pyStrip (reSub featClausePat "" m)

/-- `re.sub(r"['\-\.]", '', .).strip()` (artist punctuation stripping). -/
def stripPunctArtist (s : String) : String :=
  pyStrip (reSub (RE.cls (fun c => c == '\'' || c == '-' || c == '.')) "" s)

/-- `re.sub(r'[^\w\s]', ' ', .)` (simplified-title character filter). -/
def nonWordToSpace (s : String) : String :=
  reSub (RE.cls (fun c => !(isWordChar c || isPyWs c))) " " s

/-- Order-preserving deduplication (the `seen`-set loop that ends
    `generate_search_queries`). -/
def dedupFirst (seen : List String) : List String → List String
  | [] => []
  | q :: rest =>
    if seen.contains q then dedupFirst seen rest
    else q :: dedupFirst (q :: seen) rest

/-- `EnhancedGeniusClient.generate_search_queries`. -/
def generate_search_queries (title artist : String) : List String :=
  let clean_title := clean_title_for_search title
  let main_artist := mainArtistOf artist
  let main_artist_no_punct := stripPunctArtist main_artist
  let q1 := [clean_title ++ " " ++ main_artist]
  let q2 := if artist != main_artist then [clean_title ++ " " ++ artist] else []
  let q3 := [main_artist ++ " " ++ clean_title]
  let q4 := [clean_title]
  let q5 := if title != clean_title then [title ++ " " ++ main_artist] else []
  let simplified_title := collapseWs (pyStrip (nonWordToSpace clean_title))
  let q6 := if simplified_title != clean_title then [simplified_title ++ " " ++ main_artist] else []
  let q7 := if main_artist_no_punct != main_artist then
      [clean_title ++ " " ++ main_artist_no_punct, main_artist_no_punct ++ " " ++ clean_title]
    else []
  dedupFirst [] (q1 ++ q2 ++ q3 ++ q4 ++ q5 ++ q6 ++ q7)

/-- `remove_articles` in `_is_good_match`:
    `re.sub(r'^\s*(the|a|an)\s+', '', text, IGNORECASE).strip()`. -/
def remove_articles (text : String) : String :=
  pyStrip (reSub (rSeq [RE.bos, wsStar,
    RE.alt (rStrCI "the") (RE.alt (rStrCI "a") (rStrCI "an")), wsPlus]) "" text)

/-- `remove_all_parentheticals`: `re.sub(r'\s*\([^)]*\)', '', text).strip()`. -/
def remove_all_parentheticals (text : String) : String :=
  pyStrip (reSub (rSeq [wsStar, lit '(', RE.starG (RE.cls (fun c => c != ')')), lit ')']) "" text)

/-- Featuring-info removal on titles in `_is_good_match`:
    `re.sub(r'\s*\(?(feat\.|ft\.)\s+[^)]*\)?', '', ., IGNORECASE).strip()`. -/
def removeFeatInfo (text : String) : String :=
  pyStrip (reSub (rSeq [wsStar, RE.optG (lit '('),
    RE.alt (rStrCI "feat.") (rStrCI "ft."), wsPlus,
    RE.starG (RE.cls (fun c => c != ')')), RE.optG (lit ')')]) "" text)

/-- Main-artist extraction in `_is_good_match` (split on comma/ampersand,
    strip featuring clause, lowercase). -/
def mainArtistLower (original_artist : String) : String :=
  let m := pyStrip (splitFirst '&' (splitFirst ',' original_artist))
  pyLower (pyStrip (reSub featClausePat "" m))

/-- Contiguous-sublist test. -/
def subListOf (needle : List Char) : List Char → Bool
  | [] => needle.isPrefixOf []
  | c :: t => needle.isPrefixOf (c :: t) || subListOf needle t

/-- Substring test (Python `in` on strings). -/
def strContains (hay needle : String) : Bool := subListOf needle.data hay.data

/-- The normalized form a title takes inside `_is_good_match`:
    `clean_title_for_search(title).lower()`. -/
def normTitle (title : String) : String := pyLower (clean_title_for_search title)

/-- The step of `_is_good_match` that picks the best title similarity from the
    four variants: the all-parentheticals-removed variant may only win when
    the artist similarity is at least 85. -/
def bestTitleSimilarity (gtn otn : String) (artist_similarity : Nat) : Nat :=
  let title_similarity := fuzzScore gtn otn
  let title_similarity_no_feat := fuzzScore (removeFeatInfo gtn) (removeFeatInfo otn)
  let title_similarity_no_article := fuzzScore (remove_articles gtn) (remove_articles otn)
  let title_similarity_no_parens :=
    fuzzScore (remove_all_parentheticals gtn) (remove_all_parentheticals otn)
  let max3 := Nat.max title_similarity (Nat.max title_similarity_no_feat title_similarity_no_article)
  if title_similarity_no_parens > max3 then
    if 85 ≤ artist_similarity then title_similarity_no_parens else max3
  else
    Nat.max max3 title_similarity_no_parens

/-- `EnhancedGeniusClient._is_good_match` (the fuzzywuzzy path; without the
    library the source degrades to plain containment, which the spec does not
    describe). -/
def is_good_match (genius_title genius_artist original_title original_artist : String) : Bool :=
  let genius_title_norm := normTitle genius_title
  let original_title_norm := normTitle original_title
  let genius_artist_norm := pyLower genius_artist
  let main_artist := mainArtistLower original_artist
  let artist_similarity := fuzzScore genius_artist_norm main_artist
  let best_title_similarity :=
    bestTitleSimilarity genius_title_norm original_title_norm artist_similarity
  let artist_threshold : Nat :=
    if best_title_similarity == 100 then 45
    else if best_title_similarity ≥ 95 then 60
    else 70
  let artist_match :=
    strContains genius_artist_norm main_artist ||
    strContains main_artist genius_artist_norm ||
    fuzzScore genius_artist_norm main_artist ≥ artist_threshold
  best_title_similarity ≥ 70 && artist_match

end EnhancedGeniusClient

namespace GenreClassificationSystem

open PyStr Re

/-- One `GenreClassification` vote. Fields not consumed by the reasoning
    engine — `source_id`, `category`, `timestamp`, `metadata` — are omitted. -/
structure GenreClassification where
  name : String
  confidence : ℚ
  source : String
  deriving DecidableEq

/-- `ArtistGenreProfile`. `a_and_r_insights`, `source_data` and
    `last_updated` are omitted: no observation in the claims depends on
    them. -/
structure ArtistGenreProfile where
  artist_name : String
  classifications : List GenreClassification := []
  confidence_score : ℚ := 0
  primary_genre : Option String := none
  secondary_tags : List String := []
  crossover_indicators : List String := []
  deriving DecidableEq

/-- `primary_genre_mapping` (detailed genre → primary genre), transcribed in
    full in the source's insertion order. -/
def primary_genre_mapping : List (String × String) := [
  ("pop", "pop"), ("dance pop", "pop"), ("electropop", "pop"), ("synth pop", "pop"),
  ("teen pop", "pop"), ("power pop", "pop"), ("art pop", "pop"), ("baroque pop", "pop"),
  ("chamber pop", "pop"),
  ("rap", "hip-hop"), ("hip-hop", "hip-hop"), ("hip hop", "hip-hop"), ("trap", "hip-hop"),
  ("pop rap", "hip-hop"), ("melodic rap", "hip-hop"), ("conscious hip hop", "hip-hop"),
  ("old school hip hop", "hip-hop"), ("east coast hip hop", "hip-hop"),
  ("west coast hip hop", "hip-hop"), ("southern hip hop", "hip-hop"), ("drill", "hip-hop"),
  ("grime", "hip-hop"),
  ("rock", "rock"), ("hard rock", "rock"), ("classic rock", "rock"),
  ("progressive rock", "rock"), ("psychedelic rock", "rock"), ("garage rock", "rock"),
  ("blues rock", "rock"), ("folk rock", "rock"), ("pop rock", "rock"), ("punk rock", "rock"),
  ("metal", "rock"), ("heavy metal", "rock"),
  ("alternative", "alternative"), ("alternative rock", "alternative"), ("indie", "alternative"),
  ("indie rock", "alternative"), ("indie pop", "alternative"), ("alternative pop", "alternative"),
  ("indie folk", "alternative"), ("shoegaze", "alternative"), ("post-punk", "alternative"),
  ("post-rock", "alternative"), ("emo", "alternative"), ("grunge", "alternative"),
  ("new wave", "alternative"), ("britpop", "alternative"),
  ("country", "country"), ("country pop", "country"), ("new country", "country"),
  ("country rock", "country"), ("americana", "country"), ("bluegrass", "country"),
  ("country folk", "country"),
  ("electronic", "electronic"), ("edm", "electronic"), ("house", "electronic"),
  ("techno", "electronic"), ("trance", "electronic"), ("dubstep", "electronic"),
  ("ambient", "electronic"), ("drum and bass", "electronic"), ("breakbeat", "electronic"),
  ("garage", "electronic"), ("uk garage", "electronic"), ("future bass", "electronic"),
  ("synthwave", "electronic"),
  ("r&b", "r&b"), ("rnb", "r&b"), ("rhythm and blues", "r&b"), ("soul", "r&b"),
  ("neo soul", "r&b"), ("contemporary r&b", "r&b"), ("funk", "r&b"), ("gospel", "r&b"),
  ("motown", "r&b"),
  ("latin", "latin"), ("reggaeton", "latin"), ("latin pop", "latin"), ("latin trap", "latin"),
  ("salsa", "latin"), ("bachata", "latin"), ("merengue", "latin"), ("cumbia", "latin"),
  ("regional mexican", "latin"), ("mariachi", "latin"),
  ("folk", "folk"), ("acoustic", "folk"), ("singer-songwriter", "folk"),
  ("contemporary folk", "folk"), ("traditional folk", "folk"), ("celtic", "folk"),
  ("world music", "folk"), ("world", "folk"),
  ("jazz", "jazz"), ("smooth jazz", "jazz"), ("bebop", "jazz"), ("fusion", "jazz"),
  ("acid jazz", "jazz"), ("latin jazz", "jazz"), ("big band", "jazz"), ("swing", "jazz"),
  ("cool jazz", "jazz"), ("hard bop", "jazz")]

/-- `source_weights` for confidence scoring. -/
def source_weights : List (String × ℚ) := [
  ("chartmetric", 0.35), ("spotify", 0.30), ("lastfm", 0.25), ("genius", 0.10)]

/-- `dict.get(key, default)` on an insertion-ordered association list. -/
def assocGet (l : List (String × ℚ)) (key : String) (dflt : ℚ) : ℚ :=
  match l.find? (fun e => e.1 == key) with
  | some e => e.2
  | none => dflt

/-- `GenreClassificationSystem._map_to_primary_genre`: exact table lookup,
    then a substring-containment pass over the table in order, else
    "other". -/
def map_to_primary_genre (genre : String) : String :=
  let genre_lower := pyStrip (pyLower genre)
  match primary_genre_mapping.find? (fun e => e.1 == genre_lower) with
  | some e => e.2
  | none =>
    match primary_genre_mapping.find? (fun e =>
        EnhancedGeniusClient.subListOf genre_lower.data e.1.data ||
        EnhancedGeniusClient.subListOf e.1.data genre_lower.data) with
    | some e => e.2
    | none => "other"

/-- The per-classification vote weight:
    `source_weights.get(source, 0.1) * confidence`. -/
def voteWeight (c : GenreClassification) : ℚ :=
  assocGet source_weights c.source 0.1 * c.confidence

/-- Add `w` to `key` in an insertion-ordered association list (Python dict
    accumulation). -/
def addVote (votes : List (String × ℚ)) (key : String) (w : ℚ) : List (String × ℚ) :=
  match votes with
  | [] => [(key, w)]
  | e :: rest => if e.1 == key then (e.1, e.2 + w) :: rest else e :: addVote rest key w

/-- Accumulated weight per primary genre over a classification list, in dict
    insertion order — shared by the voting step
    (`_apply_ari_reasoning_engine`) and crossover detection
    (`_detect_crossover_indicators`), which recomputes the same totals. -/
def accumVotes (cls : List GenreClassification) : List (String × ℚ) :=
  cls.foldl (fun votes c => addVote votes (map_to_primary_genre c.name) (voteWeight c)) []

/-- The sum of all vote weights of a classification list. -/
def totalVoteWeight (cls : List GenreClassification) : ℚ :=
  (cls.map voteWeight).sum

/-- Python `max(d, key=d.get)` on an insertion-ordered dict: the first key
    attaining the maximum value. -/
def argmaxFirst : List (String × ℚ) → Option (String × ℚ)
  | [] => none
  | e :: rest =>
    some (rest.foldl (fun best x => if x.2 > best.2 then x else best) e)

/-- Secondary-tag collection: the source builds a Python `set` and takes
    `list(secondary_tags)[:10]`; the set is modelled as a
    first-occurrence-ordered deduplicated list (only the set's cardinality is
    observable in the claims considered here — `list(set)` order is
    implementation-defined). -/
def collectSecondaryTags (cls : List GenreClassification) : List String :=
  (cls.foldl (fun acc c =>
      let primary := map_to_primary_genre c.name
      let nm := pyLower c.name
      if nm != primary && !(acc.contains nm) then acc ++ [nm] else acc) []).take 10

/-- Stable insertion into a descending-by-weight list (an element moves past
    strictly-smaller entries only), used to mirror Python's stable
    `sorted(..., key=weight, reverse=True)`. -/
def insertDesc (x : String × ℚ) : List (String × ℚ) → List (String × ℚ)
  | [] => [x]
  | y :: ys => if x.2 ≥ y.2 then x :: y :: ys else y :: insertDesc x ys

/-- Stable descending sort by weight. -/
def sortDesc : List (String × ℚ) → List (String × ℚ)
  | [] => []
  | x :: xs => insertDesc x (sortDesc xs)

/-- The `f"primary_{X}_secondary_{Y}"` crossover tag. -/
def crossTag (x y : String) : String :=
  "primary_" ++ x ++ "_secondary_" ++ y

/-- `GenreClassificationSystem._detect_crossover_indicators`. -/
def detect_crossover_indicators (profile : ArtistGenreProfile) : List String :=
  let genre_strengths := accumVotes profile.classifications
  let sorted_genres := sortDesc genre_strengths
  let indicators :=
    match sorted_genres with
    | g1 :: g2 :: _ =>
      if g2.2 > g1.2 * 0.6 then ["multi_genre_crossover", crossTag g1.1 g2.1] else []
    | _ => []
  if profile.secondary_tags.length > 5 then indicators ++ ["high_genre_diversity"]
  else indicators

/-- `GenreClassificationSystem._apply_ari_reasoning_engine` (returning the
    updated profile instead of mutating it in place). -/
def apply_ari_reasoning_engine (profile : ArtistGenreProfile) : ArtistGenreProfile :=
  if profile.classifications.isEmpty then
    { profile with primary_genre := some "other", confidence_score := 0 }
  else
    let primary_genre_votes := accumVotes profile.classifications
    let secondary_tags := collectSecondaryTags profile.classifications
    let profile : ArtistGenreProfile :=
      match argmaxFirst primary_genre_votes with
      | some best =>
        let total_weight := (primary_genre_votes.map (fun e => e.2)).sum
        { profile with
          primary_genre := some best.1
          confidence_score := if total_weight > 0 then best.2 / total_weight else 0 }
      | none => { profile with primary_genre := some "other", confidence_score := 0 }
    let profile := { profile with secondary_tags := secondary_tags }
    { profile with crossover_indicators := detect_crossover_indicators profile }

/-- A row of the `songs` table (the fields consumed by the classification
    queries). -/
structure SongRow where
  song_id : Nat
  artist_name : String
  deriving DecidableEq

/-- A row of the `song_genres` table joined with `genres.genre_name`. -/
structure SongGenreRow where
  song_id : Nat
  genre_name : String
  confidence_score : ℚ
  deriving DecidableEq

/-- The database state visible to the classification system; queries return
    rows in list (table) order. -/
structure Db where
  songs : List SongRow
  song_genres : List SongGenreRow

/-- `Songs.artist_name.ilike(f"%{artist_name}%")`: case-insensitive substring
    containment. -/
def ilikeContains (hay pat : String) : Bool :=
  EnhancedGeniusClient.subListOf (pyLower pat).data (pyLower hay).data

/-- The artist's songs: `session.query(Songs).filter(ilike)` (no year filter —
    `classify_artist` calls `_get_existing_classification` without a year). -/
def artistSongs (db : Db) (artist_name : String) : List SongRow :=
  db.songs.filter (fun s => ilikeContains s.artist_name artist_name)

/-- The artist's `song_genres` rows with confidence above the 0.8
    high-confidence threshold — the rows counted by
    `_get_existing_classification`. -/
def qualifyingRows (db : Db) (artist_name : String) : List SongGenreRow :=
  let ids := (artistSongs db artist_name).map (fun s => s.song_id)
  db.song_genres.filter (fun r => ids.contains r.song_id && r.confidence_score > 0.8)

/-- `GenreClassificationSystem._get_existing_classification` (year = None). -/
def get_existing_classification (db : Db) (artist_name : String) :
    Option ArtistGenreProfile :=
  let songs := artistSongs db artist_name
  if songs.isEmpty then none
  else
    let classified_count := (qualifyingRows db artist_name).length
    if classified_count == songs.length && classified_count > 0 then
      match (qualifyingRows db artist_name).head? with
      | some song_genre =>
        some { artist_name := artist_name,
               primary_genre := some song_genre.genre_name,
               confidence_score := song_genre.confidence_score }
      | none => none
    else none

/-- `_extract_primary_artist`'s `featuring_patterns`, in list order. -/
def featuring_patterns : List RE := [
  rSeq [wsPlus, rStrCI "feat", RE.optG (lit '.'), wsPlus],
  rSeq [wsPlus, rStrCI "ft", RE.optG (lit '.'), wsPlus],
  rSeq [wsPlus, rStrCI "featuring", wsPlus],
  rSeq [wsPlus, rStrCI "with", wsPlus],
  rSeq [wsPlus, lit '&', wsPlus],
  rSeq [wsPlus, litCI 'x', wsPlus],
  rSeq [wsPlus, lit '+', wsPlus]]

/-- `GenreClassificationSystem._extract_primary_artist`: lowercase + strip,
    then cut before the first pattern (in pattern-list order) that matches
    anywhere. -/
def extract_primary_artist (artist_name : String) : String :=
  let primary := pyStrip (pyLower artist_name)
  let rec go : List RE → String
    | [] => primary
    | pat :: rest =>
      match reFindStart pat primary with
      | some start => pyStrip (String.mk (primary.data.take start))
      | none => go rest
  go featuring_patterns

/-- Responses of the external sources for one artist lookup. `none` models an
    unavailable call, an exception (caught and logged by the source) or falsy
    data; `some` carries the extracted genre payload. -/
structure SourceEnv where
  spotifyAvailable : Bool
  spotifyGenres : Option (List String)
  chartmetricAvailable : Bool
  chartmetricGenres : Option (List String)
  lastfmAvailable : Bool
  lastfmTopGenres : Option (List (String × ℚ))

/-- `_get_genius_artist_genres`: distinct genre names over the artist's
    `song_genres` rows (no confidence filter), in row order. -/
def get_genius_artist_genres (db : Db) (artist_name : String) : List String :=
  let ids := (artistSongs db artist_name).map (fun s => s.song_id)
  (db.song_genres.filter (fun r => ids.contains r.song_id)).foldl
    (fun acc r => if acc.contains r.genre_name then acc else acc ++ [r.genre_name]) []

/-- `GenreClassificationSystem.classify_artist`, instrumented to also return
    the list of source adapters invoked and the updated in-memory
    classification cache. -/
def classify_artist (env : SourceEnv) (db : Db)
    (cache : List (String × ArtistGenreProfile)) (artist_name : String) :
    ArtistGenreProfile × List String × List (String × ArtistGenreProfile) :=
  let primary_artist := extract_primary_artist artist_name
  let existing := get_existing_classification db artist_name
  match existing with
  | some p =>
    if p.confidence_score > 0.8 then (p, [], cache)
    else classifyFresh primary_artist
  | none => classifyFresh primary_artist
where
  classifyFresh (primary_artist : String) :
      ArtistGenreProfile × List String × List (String × ArtistGenreProfile) :=
    let cache_key := "artist_" ++ primary_artist
    match cache.find? (fun e => e.1 == cache_key) with
    | some e => (e.2, [], cache)
    | none =>
      let profile : ArtistGenreProfile := { artist_name := artist_name }
      let spotifyStep :=
        if env.spotifyAvailable then
          match env.spotifyGenres with
          | some gs =>
            (gs.map (fun g => GenreClassification.mk g 0.7 "spotify"), ["spotify"], !gs.isEmpty)
          | none => ([], ["spotify"], false)
        else ([], [], false)
      let (spotifyCls, inv1, spotify_has_good_data) := spotifyStep
      let chartStep :=
        if !spotify_has_good_data && env.chartmetricAvailable then
          match env.chartmetricGenres with
          | some gs => (gs.map (fun g => GenreClassification.mk g 0.8 "chartmetric"), ["chartmetric"])
          | none => ([], ["chartmetric"])
        else ([], [])
      let (chartCls, inv2) := chartStep
      let lastfmStep :=
        if env.lastfmAvailable then
          match env.lastfmTopGenres with
          | some tgs => (tgs.map (fun tg => GenreClassification.mk tg.1 tg.2 "lastfm"), ["lastfm"])
          | none => ([], ["lastfm"])
        else ([], [])
      let (lastfmCls, inv3) := lastfmStep
      let geniusCls := (get_genius_artist_genres db artist_name).map
        (fun g => GenreClassification.mk g 0.6 "genius")
      let profile := { profile with
        classifications := spotifyCls ++ chartCls ++ lastfmCls ++ geniusCls }
      let profile := apply_ari_reasoning_engine profile
      (profile, inv1 ++ inv2 ++ inv3, cache ++ [(cache_key, profile)])

end GenreClassificationSystem

namespace MLSubgenreClassifier

/-- A feature range `(min, max)` from the rule table. -/
structure FeatureRange where
  lo : ℚ
  hi : ℚ
  deriving DecidableEq

/-- `RULE_BASED_SUBGENRES` from `phase3/training/subgenre_definitions.py`,
    transcribed in table order. -/
def RULE_BASED_SUBGENRES : List (String × List (String × List (String × FeatureRange))) := [
  ("jazz", [
    ("smooth-jazz", [("acousticness", ⟨0.4, 0.8⟩), ("energy", ⟨0.3, 0.6⟩)]),
    ("bebop", [("tempo", ⟨200, 350⟩), ("instrumentalness", ⟨0.5, 1.0⟩)]),
    ("jazz-fusion", [("energy", ⟨0.6, 0.9⟩), ("instrumentalness", ⟨0.3, 0.8⟩)])]),
  ("folk", [
    ("folk-rock", [("energy", ⟨0.5, 0.8⟩), ("acousticness", ⟨0.4, 0.7⟩)]),
    ("singer-songwriter", [("acousticness", ⟨0.6, 0.9⟩), ("speechiness", ⟨0.03, 0.15⟩)]),
    ("americana", [("acousticness", ⟨0.5, 0.8⟩), ("valence", ⟨0.4, 0.7⟩)])])]

/-- A Spotify audio-feature dict: unique string keys, first binding wins. -/
def Features := List (String × ℚ)

/-- Dict membership / `audio_features[feature]`. -/
def featLookup (fs : Features) (key : String) : Option ℚ :=
  match fs.find? (fun e => e.1 == key) with
  | some e => some e.2
  | none => none

/-- `MLSubgenreClassifier._calculate_profile_match`: profile features absent
    from the dict are skipped; full credit inside the inclusive `[min, max]`
    range, half credit within the 20%-widened band
    (`min ≤ v ≤ 1.2 * max or 0.8 * min ≤ v ≤ max`), zero otherwise;
    score = matches / total (0.0 when no feature was checked). This is the
    loop body of `_calculate_profile_match`. -/
def profileStep (audio_features : Features) (acc : ℚ × Nat)
    (e : String × FeatureRange) : ℚ × Nat :=
  match featLookup audio_features e.1 with
  | none => acc
  | some value =>
    let (credits, total) := acc
    let mn := e.2.lo
    let mx := e.2.hi
    if mn ≤ value && value ≤ mx then (credits + 1, total + 1)
    else if (mn ≤ value && value ≤ mx * 1.2) || (mn * 0.8 ≤ value && value ≤ mx) then
      (credits + 0.5, total + 1)
    else (credits, total + 1)

/-- The fold of `_calculate_profile_match` over the profile entries. -/
def calculate_profile_match (audio_features : Features)
    (profile : List (String × FeatureRange)) : ℚ :=
  let ct := profile.foldl (profileStep audio_features) (0, 0)
  if ct.2 > 0 then ct.1 / (ct.2 : ℚ) else 0

/-- `MLSubgenreClassifier.classify_with_rules`. -/
def classify_with_rules (primary_genre : String) (audio_features : Features) :
    Option String × ℚ :=
  match RULE_BASED_SUBGENRES.find? (fun e => e.1 == primary_genre) with
  | none => (none, 0)
  | some (_, subgenre_profiles) =>
    let bs :=
      subgenre_profiles.foldl (fun (acc : Option String × ℚ) e =>
        let score := calculate_profile_match audio_features e.2
        if score > acc.2 then (some e.1, score) else acc) (none, 0)
    if bs.2 ≥ 0.6 then (bs.1, bs.2) else (none, bs.2)

/-- The result dict of `MLSubgenreClassifier.classify`. -/
structure SubgenreResult where
  subgenre : Option String
  confidence : ℚ
  method : String
  primary_genre : String
  deriving DecidableEq

/-- The ML stage as an oracle: `none` models "no usable prediction" — the
    model raised (caught by `classify_with_ml`'s `except`, which returns
    `(None, 0.0)`). The classifier's observable behaviour depends only on
    this outcome. -/
def MlOracle := String → Features → Option (String × ℚ)

/-- Python truthiness of a predicted label (`if subgenre:` — `None` and the
    empty string are falsy). -/
def truthyLabel : Option String → Bool
  | none => false
  | some s => s != ""

/-- `MLSubgenreClassifier.classify` for the loaded-model genre set `models`
    and ML predictions given by `ml`. -/
def classify (models : List String) (ml : MlOracle) (primary_genre : String)
    (audio_features : Features) (method : String) : SubgenreResult :=
  let mlStep : Option String × ℚ :=
    if models.contains primary_genre then
      match ml primary_genre audio_features with
      | some (s, c) => (some s, c)
      | none => (none, 0)
    else (none, 0)
  if (method == "ml" || method == "auto") && truthyLabel mlStep.1 then
    { subgenre := mlStep.1, confidence := mlStep.2, method := "ml",
      primary_genre := primary_genre }
  else
    let rulesStep := classify_with_rules primary_genre audio_features
    if (method == "rules" || method == "auto") && truthyLabel rulesStep.1 then
      { subgenre := rulesStep.1, confidence := rulesStep.2, method := "rules",
        primary_genre := primary_genre }
    else
      { subgenre := none, confidence := 0, method := "none",
        primary_genre := primary_genre }

end MLSubgenreClassifier

namespace ProducerGenrePatterns

/-- One entry of `PRODUCER_GENRE_SIGNATURES`. -/
structure Signature where
  primary : String
  subgenres : List String
  confidence : ℚ
  notes : String
  secondary_genre : Option String := none
  deriving DecidableEq

/-- `PRODUCER_GENRE_SIGNATURES`, transcribed in full in table order. -/
def PRODUCER_GENRE_SIGNATURES : List (String × Signature) := [
  ("max martin", ⟨"pop", ["dance-pop", "teen-pop", "electropop"], 0.95, "Legendary pop producer, Britney/Backstreet Boys era", none⟩),
  ("rami", ⟨"pop", ["dance-pop", "electropop"], 0.90, "Pop specialist, works with Max Martin", none⟩),
  ("bag & arnthor", ⟨"pop", ["dance-pop", "teen-pop"], 0.90, "Scandinavian pop production team", none⟩),
  ("kristian lundin", ⟨"pop", ["dance-pop", "teen-pop"], 0.90, "Cheiron Studios, Max Martin collaborator", none⟩),
  ("the neptunes", ⟨"hip-hop", ["alternative-hip-hop", "pop-rap", "southern-hip-hop"], 0.95, "Pharrell & Chad Hugo, distinctive sound", none⟩),
  ("mannie fresh", ⟨"hip-hop", ["southern-hip-hop", "crunk", "bounce"], 0.95, "Cash Money Records, New Orleans sound", none⟩),
  ("dr. dre", ⟨"hip-hop", ["west-coast-hip-hop", "g-funk", "gangster-rap"], 0.95, "West coast legend, G-funk pioneer", none⟩),
  ("swizz beatz", ⟨"hip-hop", ["east-coast-hip-hop", "hardcore-hip-hop"], 0.90, "Ruff Ryders, aggressive beats", none⟩),
  ("bryan-michael cox", ⟨"r&b", ["contemporary-r&b", "neo-soul"], 0.90, "Modern R&B specialist", none⟩),
  ("rodney jerkins", ⟨"r&b", ["contemporary-r&b", "pop-r&b"], 0.85, "Darkchild, crossover R&B", none⟩),
  ("timbaland", ⟨"hip-hop", ["alternative-r&b", "contemporary-r&b", "pop-rap"], 0.85, "Versatile, hip-hop and R&B, futuristic sound", some "r&b"⟩),
  ("jermaine dupri", ⟨"hip-hop", ["southern-hip-hop", "contemporary-r&b", "pop-rap"], 0.80, "So So Def, hip-hop and R&B crossover", some "r&b"⟩),
  ("byron gallimore", ⟨"country", ["contemporary-country", "country-pop"], 0.95, "Major country producer, Tim McGraw, Faith Hill", none⟩),
  ("james stroud", ⟨"country", ["contemporary-country", "traditional-country"], 0.90, "Country specialist", none⟩),
  ("paul worley", ⟨"country", ["contemporary-country", "bluegrass"], 0.90, "Country producer, Dixie Chicks", none⟩),
  ("dann huff", ⟨"country", ["contemporary-country", "country-rock"], 0.90, "Nashville sound, country-rock blend", none⟩),
  ("rick rubin", ⟨"rock", ["alternative-rock", "hard-rock", "rap-rock"], 0.90, "Versatile legend, raw sound", none⟩),
  ("don gilmore", ⟨"rock", ["nu-metal", "alternative-metal"], 0.90, "Nu-metal specialist, Linkin Park", none⟩)]

/-- `ERA_BASED_SUBGENRES`; the source stores era keys as "start-end" strings
    that `get_era_subgenres` parses with `map(int, era_range.split('-'))` —
    modelled directly as `(start, end)` pairs. -/
def ERA_BASED_SUBGENRES : List (String × List ((Nat × Nat) × List String)) := [
  ("pop", [((2000, 2004), ["teen-pop", "dance-pop"]),
           ((2005, 2009), ["pop-rock", "emo-pop"]),
           ((2010, 2015), ["electropop", "indie-pop"]),
           ((2016, 2020), ["alt-pop", "bedroom-pop"]),
           ((2021, 2025), ["hyperpop", "alt-pop"])]),
  ("hip-hop", [((2000, 2003), ["southern-hip-hop", "crunk"]),
               ((2004, 2008), ["snap-music", "ringtone-rap"]),
               ((2009, 2012), ["blog-rap", "conscious-hip-hop"]),
               ((2013, 2016), ["trap", "drill"]),
               ((2017, 2020), ["emo-rap", "melodic-rap"]),
               ((2021, 2025), ["rage-rap", "plugg"])]),
  ("country", [((2000, 2010), ["country-pop", "contemporary-country"]),
               ((2011, 2015), ["bro-country", "country-pop"]),
               ((2016, 2025), ["country-trap", "country-pop"])]),
  ("r&b", [((2000, 2005), ["neo-soul", "contemporary-r&b"]),
           ((2006, 2010), ["alternative-r&b", "contemporary-r&b"]),
           ((2011, 2025), ["alternative-r&b", "pop-r&b"])])]

/-- `PRODUCER_NAME_VARIATIONS` (producer alias normalization). -/
def PRODUCER_NAME_VARIATIONS : List (String × String) := [
  ("pharrell williams", "the neptunes"), ("chad hugo", "the neptunes"),
  ("pharrell", "the neptunes"), ("darkchild", "rodney jerkins"),
  ("rodney jenkins", "rodney jerkins"), ("timbo", "timbaland"),
  ("tim mosley", "timbaland"), ("jd", "jermaine dupri"), ("max", "max martin")]

/-- `get_era_subgenres`. -/
def get_era_subgenres (genre : String) (year : Nat) : List String :=
  match ERA_BASED_SUBGENRES.find? (fun e => e.1 == genre) with
  | none => []
  | some (_, era_map) =>
    match era_map.find? (fun e => e.1.1 ≤ year && year ≤ e.1.2) with
    | some e => e.2
    | none => []

/-- The enumeration order used to model `list(set(xs))`: CPython's set
    iteration order is implementation-defined (string hashes are randomized
    per process), so it is passed explicitly; an admissible order is any
    permutation of the distinct elements, `(setOrder xs).Perm xs.dedup`. -/
def SetOrder := List String → List String

/-- `get_producer_subgenres`. -/
def get_producer_subgenres (setOrder : SetOrder) (producer_name : String)
    (year : Option Nat) : Option Signature :=
  let producer_lower := PyStr.pyStrip (PyStr.pyLower producer_name)
  let producer_lower :=
    match PRODUCER_NAME_VARIATIONS.find? (fun e => e.1 == producer_lower) with
    | some e => e.2
    | none => producer_lower
  match PRODUCER_GENRE_SIGNATURES.find? (fun e => e.1 == producer_lower) with
  | none => none
  | some (_, signature) =>
    -- `if year and signature['primary'] in ERA_BASED_SUBGENRES:` (0 is falsy)
    match year with
    | some y =>
      if y != 0 && (ERA_BASED_SUBGENRES.find? (fun e => e.1 == signature.primary)).isSome then
        let era_subgenres := get_era_subgenres signature.primary y
        if !era_subgenres.isEmpty then
          some { signature with subgenres := setOrder (signature.subgenres ++ era_subgenres) }
        else some signature
      else some signature
    | none => some signature

/-- First-occurrence-ordered counts (`collections.Counter` of a list). -/
def counterOf (xs : List String) : List (String × ℚ) :=
  xs.foldl (fun acc x => GenreClassificationSystem.addVote acc x 1) []

/-- `Counter.most_common(n)`: counts sorted descending (stable, so ties keep
    first-occurrence order, as `heapq.nlargest` does), first `n` kept. -/
def mostCommon (n : Nat) (xs : List String) : List String :=
  ((GenreClassificationSystem.sortDesc (counterOf xs)).take n).map (fun e => e.1)

/-- The result dict of `analyze_producer_contribution`. -/
structure ProducerContribution where
  suggested_subgenres : List String
  confidence : ℚ
  num_producers : Nat
  source : String
  deriving DecidableEq

/-- `analyze_producer_contribution`. -/
def analyze_producer_contribution (setOrder : SetOrder) (song_producers : List String)
    (song_year : Option Nat) : Option ProducerContribution :=
  if song_producers.isEmpty then none
  else
    let found := song_producers.filterMap
      (fun p => get_producer_subgenres setOrder p song_year)
    let all_subgenres := found.foldl (fun acc s => acc ++ s.subgenres) []
    let total_confidence := (found.map (fun s => s.confidence)).sum
    if all_subgenres.isEmpty then none
    else
      some { suggested_subgenres := mostCommon 3 all_subgenres,
             confidence := min (total_confidence / (song_producers.length : ℚ)) 1,
             num_producers := found.length,
             source := "producer_specialization" }

/-- The combined subgenre list that `get_producer_subgenres` builds for
    Max Martin with a 2002 era refinement(before `list(set(...))`). -/
def maxMartinCombined : List String :=
  ["dance-pop", "teen-pop", "electropop"] ++ get_era_subgenres "pop" 2002

end ProducerGenrePatterns

namespace MLSubgenreClassifier

/-- Per-feature credit exactly as `_calculate_profile_match` awards it:
    full credit on the inclusive range, half credit on the 20%-widened band,
    zero otherwise. -/
def creditAt (value : ℚ) (r : FeatureRange) : ℚ :=
  if r.lo ≤ value ∧ value ≤ r.hi then 1
  else if (r.lo ≤ value ∧ value ≤ r.hi * 1.2) ∨ (r.lo * 0.8 ≤ value ∧ value ≤ r.hi) then 0.5
  else 0

/-- The profile features actually checked: those present in the feature
    dict. -/
def checkedFeatures (audio_features : Features)
    (profile : List (String × FeatureRange)) : List (String × FeatureRange) :=
  profile.filter (fun e => (featLookup audio_features e.1).isSome)

/-- Credits-over-features-checked reformulation of the rule score (the
    closed-form the specification describes, with the code's inclusive
    bounds). -/
def profile_match_formula (audio_features : Features)
    (profile : List (String × FeatureRange)) : ℚ :=
  let checked := checkedFeatures audio_features profile
  if checked.isEmpty then 0
  else (checked.map (fun e => creditAt ((featLookup audio_features e.1).getD 0) e.2)).sum /
    (checked.length : ℚ)

/-- The per-feature credit as the claim words it (`strictly inside [min,max]`
    earns full credit): full credit only on the open interval. Defined from
    the claim's words, to be compared with the source's
    `_calculate_profile_match`. -/
def claimedStrictCredit (value : ℚ) (r : FeatureRange) : ℚ :=
  if r.lo < value ∧ value < r.hi then 1
  else if (r.lo ≤ value ∧ value ≤ r.hi * 1.2) ∨ (r.lo * 0.8 ≤ value ∧ value ≤ r.hi) then 0.5
  else 0

/-- The claim's version of the rule score (strict full-credit bounds);
    otherwise identical to `profile_match_formula`. -/
def claimed_profile_match (audio_features : Features)
    (profile : List (String × FeatureRange)) : ℚ :=
  let checked := checkedFeatures audio_features profile
  if checked.isEmpty then 0
  else (checked.map (fun e => claimedStrictCredit ((featLookup audio_features e.1).getD 0) e.2)).sum /
    (checked.length : ℚ)

end MLSubgenreClassifier

namespace GenreClassificationSystem

/-- Single-song database whose lone catalog entry carries exactly one
    high-confidence genre row. -/
def c1DbOk : Db :=
  { songs := [⟨1, "aa"⟩], song_genres := [⟨1, "pop", 0.9⟩] }

/-- Single-song database whose lone catalog entry carries two distinct
    high-confidence genre rows (legal under the `uq_song_genre` constraint:
    different genres). -/
def c1DbMulti : Db :=
  { songs := [⟨1, "aa"⟩], song_genres := [⟨1, "pop", 0.9⟩, ⟨1, "rock", 0.9⟩] }

/-- Source environment with only the Spotify adapter available and
    returning data. -/
def c1Env : SourceEnv :=
  { spotifyAvailable := true, spotifyGenres := some ["pop"],
    chartmetricAvailable := false, chartmetricGenres := none,
    lastfmAvailable := false, lastfmTopGenres := none }

end GenreClassificationSystem

set_option maxRecDepth 8000

/-- C3: evaluation of `generate_search_queries` at the Sunflower scenario.
    The cleaning patterns contain nothing that matches the bare soundtrack
    parenthetical "(Spider-Man: Into the Spider-Verse)" (no `feat`/`From`/
    `Version`/`Radio`/`Mix` keyword inside it), so the title survives
    cleaning: the first candidate is the uncleaned
    "Sunflower (Spider-Man: Into the Spider-Verse) Post Malone" — not
    "Sunflower Post Malone" — and the literal parenthetical occurs in the
    first candidate (indeed in four of the five), contradicting the spec's
    scenario; the repository's own test table in
    `phase2/src/api/enhanced_genius_search.py` expects
    "Sunflower" as the cleaned title. -/
theorem C3_sunflower_query_generation :
    EnhancedGeniusClient.generate_search_queries
        "Sunflower (Spider-Man: Into the Spider-Verse)" "Post Malone & Swae Lee" =
      ["Sunflower (Spider-Man: Into the Spider-Verse) Post Malone",
       "Sunflower (Spider-Man: Into the Spider-Verse) Post Malone & Swae Lee",
       "Post Malone Sunflower (Spider-Man: Into the Spider-Verse)",
       "Sunflower (Spider-Man: Into the Spider-Verse)",
       "Sunflower Spider Man Into the Spider Verse Post Malone"] ∧
    (EnhancedGeniusClient.generate_search_queries
        "Sunflower (Spider-Man: Into the Spider-Verse)" "Post Malone & Swae Lee").head? ≠
      some "Sunflower Post Malone" ∧
    EnhancedGeniusClient.strContains
      "Sunflower (Spider-Man: Into the Spider-Verse) Post Malone"
      "(Spider-Man: Into the Spider-Verse)" = true := by
  refine ⟨by decide, by decide, by decide⟩

namespace MLSubgenreClassifier

/-- On a checked feature the loop body adds exactly the feature's credit to
    the numerator and one to the denominator. -/
theorem profileStep_checked (f : Features) (e : String × FeatureRange)
    (c0 : ℚ) (t0 : Nat) (v : ℚ) (hv : featLookup f e.1 = some v) :
    profileStep f (c0, t0) e = (c0 + creditAt v e.2, t0 + 1) := by
  simp only [profileStep, hv, creditAt, Bool.and_eq_true, Bool.or_eq_true,
    decide_eq_true_eq]
  by_cases h1 : e.2.lo ≤ v ∧ v ≤ e.2.hi
  · simp [h1]
  · by_cases h2 : (e.2.lo ≤ v ∧ v ≤ e.2.hi * 1.2) ∨ (e.2.lo * 0.8 ≤ v ∧ v ≤ e.2.hi)
    · simp [h1, h2]
    · simp [h1, h2]

/-- The profile-match fold adds, per checked feature, exactly its credit to
    the numerator and one to the denominator; skipped features change
    nothing. -/
theorem foldl_profileStep (f : Features) (p : List (String × FeatureRange))
    (c0 : ℚ) (t0 : Nat) :
    p.foldl (profileStep f) (c0, t0) =
      (c0 + ((checkedFeatures f p).map
        (fun e => creditAt ((featLookup f e.1).getD 0) e.2)).sum,
       t0 + (checkedFeatures f p).length) := by
  induction p generalizing c0 t0 with
  | nil => simp [checkedFeatures]
  | cons e p ih =>
    rcases hv : featLookup f e.1 with _ | v
    · have hstep : profileStep f (c0, t0) e = (c0, t0) := by
        simp [profileStep, hv]
      simp [List.foldl_cons, hstep, checkedFeatures, List.filter_cons, hv, ih]
    · have hck : checkedFeatures f (e :: p) = e :: checkedFeatures f p := by
        simp [checkedFeatures, List.filter_cons, hv]
      rw [List.foldl_cons, profileStep_checked f e c0 t0 v hv, ih, hck]
      simp only [List.map_cons, List.sum_cons, List.length_cons, hv,
        Option.getD_some, Prod.mk.injEq]
      exact ⟨by ring, by omega⟩

end MLSubgenreClassifier

namespace MLSubgenreClassifier

/-- Every credit the loop can award lies in `[0, 1]`. -/
theorem creditAt_bounds (v : ℚ) (r : FeatureRange) :
    0 ≤ creditAt v r ∧ creditAt v r ≤ 1 := by
  unfold creditAt
  split
  · norm_num
  · split <;> norm_num

/-- The rule score is the credits-over-features-checked closed form. -/
theorem calculate_profile_match_eq_formula (f : Features)
    (p : List (String × FeatureRange)) :
    calculate_profile_match f p = profile_match_formula f p := by
  unfold calculate_profile_match profile_match_formula
  rw [foldl_profileStep]
  rcases h : checkedFeatures f p with _ | ⟨e, rest⟩
  · simp
  · simp [h]

/-- A list of rationals that are each at most one sums to at most its
    length. -/
theorem sum_le_length (l : List ℚ) (h : ∀ x ∈ l, x ≤ 1) :
    l.sum ≤ (l.length : ℚ) := by
  induction l with
  | nil => simp
  | cons a t ih =>
    simp only [List.sum_cons, List.length_cons]
    push_cast
    have ht := ih (fun x hx => h x (List.mem_cons_of_mem a hx))
    have ha := h a (List.mem_cons_self a t)
    linarith

/-- The rule score always lies in `[0, 1]`. -/
theorem calculate_profile_match_bounds (f : Features)
    (p : List (String × FeatureRange)) :
    0 ≤ calculate_profile_match f p ∧ calculate_profile_match f p ≤ 1 := by
  rw [calculate_profile_match_eq_formula]
  unfold profile_match_formula
  rcases h : checkedFeatures f p with _ | ⟨e, rest⟩
  · simp
  · simp only [List.isEmpty_cons, Bool.false_eq_true, if_neg, ite_false]
    have hlen : (0:ℚ) < ((e :: rest).length : ℚ) := by
      simp only [List.length_cons]
      exact_mod_cast Nat.succ_pos rest.length
    have hsum0 : 0 ≤ ((e :: rest).map
        (fun e => creditAt ((featLookup f e.1).getD 0) e.2)).sum := by
      apply List.sum_nonneg
      intro x hx
      obtain ⟨y, _, rfl⟩ := List.mem_map.mp hx
      exact (creditAt_bounds _ _).1
    have hsum1 : ((e :: rest).map
        (fun e => creditAt ((featLookup f e.1).getD 0) e.2)).sum ≤
        ((e :: rest).length : ℚ) := by
      have := sum_le_length ((e :: rest).map
          (fun e => creditAt ((featLookup f e.1).getD 0) e.2)) ?_
      · simpa using this
      · intro x hx
        obtain ⟨y, _, rfl⟩ := List.mem_map.mp hx
        exact (creditAt_bounds _ _).2
    exact ⟨div_nonneg hsum0 hlen.le, (div_le_one hlen).mpr hsum1⟩

end MLSubgenreClassifier

namespace MLSubgenreClassifier

/-- With an empty feature dict every score is zero. -/
theorem calculate_profile_match_empty (p : List (String × FeatureRange)) :
    calculate_profile_match ([] : Features) p = 0 := by
  rw [calculate_profile_match_eq_formula]
  unfold profile_match_formula checkedFeatures
  have : p.filter (fun e => (featLookup ([] : Features) e.1).isSome) = [] := by
    simp [featLookup, List.find?]
  simp [this]

/-- Filtering a profile to its checked features does not change the score:
    absent features are skipped by the loop. -/
theorem calculate_profile_match_skip (f : Features)
    (p : List (String × FeatureRange)) :
    calculate_profile_match f p = calculate_profile_match f (checkedFeatures f p) := by
  rw [calculate_profile_match_eq_formula, calculate_profile_match_eq_formula]
  unfold profile_match_formula
  have : checkedFeatures f (checkedFeatures f p) = checkedFeatures f p := by
    unfold checkedFeatures
    rw [List.filter_filter]
    apply List.filter_congr
    intro e _
    simp
  rw [this]

/-- With an empty feature dict the rule classifier rejects: the fold never
    improves on the initial `(None, 0.0)` and the 0.6 acceptance gate
    fails. -/
theorem classify_with_rules_empty (g : String) :
    classify_with_rules g ([] : Features) = (none, 0) := by
  unfold classify_with_rules
  rcases hf : RULE_BASED_SUBGENRES.find? (fun e => e.1 == g) with _ | pr
  · simp only [hf]
  · simp only [hf, calculate_profile_match_empty]
    have hfold : ∀ (l : List (String × List (String × FeatureRange))),
        l.foldl (fun (acc : Option String × ℚ) e =>
          if (0:ℚ) > acc.2 then (some e.1, (0:ℚ)) else acc) (none, 0) = (none, 0) := by
      intro l
      induction l with
      | nil => rfl
      | cons e t ih =>
        rw [List.foldl_cons, if_neg (lt_irrefl 0)]
        exact ih
    simp only [hfold]
    norm_num

end MLSubgenreClassifier

namespace MLSubgenreClassifier

/-- The rule classifier only returns a subgenre when the best score clears
    the 0.6 acceptance threshold. -/
theorem classify_with_rules_accept (g : String) (f : Features) (sg : String) (c : ℚ)
    (h : classify_with_rules g f = (some sg, c)) : 0.6 ≤ c := by
  unfold classify_with_rules at h
  rcases hf : RULE_BASED_SUBGENRES.find? (fun e => e.1 == g) with _ | ⟨g', profs⟩ <;>
    simp only [hf] at h
  · simp at h
  · split at h
    · rename_i hge
      have h2 := congrArg Prod.snd h
      exact le_of_le_of_eq hge h2
    · simp at h

end MLSubgenreClassifier

/-- C10: `_calculate_profile_match` is total with result in `[0, 1]`;
    profile features absent from the supplied dict are skipped (the score of
    a profile equals the score of its present-features restriction, so they
    are not counted in the denominator); on an empty feature dict every
    profile scores 0 — no division by zero — and rule-based classification
    yields no match: `classify_with_rules` returns `(None, 0.0)`. -/
theorem C10_profile_match_total_and_bounded :
    ∀ (f : MLSubgenreClassifier.Features)
      (p : List (String × MLSubgenreClassifier.FeatureRange)) (g : String),
      0 ≤ MLSubgenreClassifier.calculate_profile_match f p ∧
      MLSubgenreClassifier.calculate_profile_match f p ≤ 1 ∧
      MLSubgenreClassifier.calculate_profile_match f p =
        MLSubgenreClassifier.calculate_profile_match f
          (MLSubgenreClassifier.checkedFeatures f p) ∧
      MLSubgenreClassifier.calculate_profile_match ([] : MLSubgenreClassifier.Features) p = 0 ∧
      MLSubgenreClassifier.classify_with_rules g ([] : MLSubgenreClassifier.Features) =
        (none, 0) := by
  intro f p g
  exact ⟨(MLSubgenreClassifier.calculate_profile_match_bounds f p).1,
    (MLSubgenreClassifier.calculate_profile_match_bounds f p).2,
    MLSubgenreClassifier.calculate_profile_match_skip f p,
    MLSubgenreClassifier.calculate_profile_match_empty p,
    MLSubgenreClassifier.classify_with_rules_empty g⟩

/-- C8 (counterexample): at a range boundary the code awards full credit —
    the bounds are inclusive (`min_val <= value <= max_val`), not strict.
    With profile range `energy: (0.3, 0.6)` and feature value exactly 0.3,
    `_calculate_profile_match` scores 1.0 while the claim's
    strictly-inside rule would award half credit, score 0.5. -/
theorem C8_strict_inside_counterexample :
    MLSubgenreClassifier.calculate_profile_match
        [("energy", 0.3)] [("energy", ⟨0.3, 0.6⟩)] = 1 ∧
    MLSubgenreClassifier.claimed_profile_match
        [("energy", 0.3)] [("energy", ⟨0.3, 0.6⟩)] = 0.5 := by
  constructor <;> decide

/-- C8 (amended): the rule-based match score equals credits divided by
    features-checked, where each checked feature earns full credit (1.0)
    when inside its declared `[min, max]` range *inclusively*, half credit
    (0.5) when within 20% outside the range
    (`min ≤ v ≤ 1.2·max` or `0.8·min ≤ v ≤ max`), and zero otherwise; and a
    best-scoring subgenre is accepted only when its score is at least
    0.6. -/
theorem C8_rule_score_formula :
    (∀ (f : MLSubgenreClassifier.Features)
       (p : List (String × MLSubgenreClassifier.FeatureRange)),
       MLSubgenreClassifier.calculate_profile_match f p =
         MLSubgenreClassifier.profile_match_formula f p) ∧
    (∀ (g : String) (f : MLSubgenreClassifier.Features) (sg : String) (c : ℚ),
       MLSubgenreClassifier.classify_with_rules g f = (some sg, c) → 0.6 ≤ c) :=
  ⟨MLSubgenreClassifier.calculate_profile_match_eq_formula,
   MLSubgenreClassifier.classify_with_rules_accept⟩

/-- C8 (witness): concrete jazz features accepted by the rules with score 1,
    instantiating the acceptance bound of `C8_rule_score_formula`. -/
theorem C8_rule_score_formula_witness :
    MLSubgenreClassifier.classify_with_rules "jazz"
        [("acousticness", 0.5), ("energy", 0.4)] = (some "smooth-jazz", 1) ∧
    (0.6 : ℚ) ≤ 1 :=
  ⟨by decide,
   C8_rule_score_formula.2 "jazz" [("acousticness", 0.5), ("energy", 0.4)]
     "smooth-jazz" 1 (by decide)⟩

namespace MLSubgenreClassifier

/-- Any label the rule fold selects is one of the table's subgenre keys. -/
theorem foldl_best_label (l : List (String × List (String × FeatureRange)))
    (f : Features) (acc : Option String × ℚ) (k : String)
    (h : (l.foldl (fun (acc : Option String × ℚ) e =>
        let score := calculate_profile_match f e.2
        if score > acc.2 then (some e.1, score) else acc) acc).1 = some k) :
    acc.1 = some k ∨ k ∈ l.map Prod.fst := by
  induction l generalizing acc with
  | nil => exact Or.inl h
  | cons e t ih =>
    rw [List.foldl_cons] at h
    rcases ih _ h with hacc | hmem
    · by_cases hs : calculate_profile_match f e.2 > acc.2
      · rw [if_pos hs] at hacc
        simp only [Option.some.injEq] at hacc
        exact Or.inr (by simp [← hacc])
      · rw [if_neg hs] at hacc
        exact Or.inl hacc
    · exact Or.inr (List.mem_cons_of_mem _ hmem)

/-- Any subgenre the rule classifier returns is a key of the genre's rule
    table. -/
theorem classify_with_rules_label (g : String) (f : Features) (sg : String) (c : ℚ)
    (h : classify_with_rules g f = (some sg, c)) :
    ∃ key profs, RULE_BASED_SUBGENRES.find? (fun e => e.1 == g) = some (key, profs) ∧
      sg ∈ profs.map Prod.fst := by
  unfold classify_with_rules at h
  rcases hf : RULE_BASED_SUBGENRES.find? (fun e => e.1 == g) with _ | ⟨g', profs⟩ <;>
    simp only [hf] at h
  · simp at h
  · refine ⟨g', profs, hf, ?_⟩
    split at h
    · have h1 := congrArg Prod.fst h
      simp only at h1
      rcases foldl_best_label profs f (none, 0) sg h1 with habs | hmem
      · simp at habs
      · exact hmem
    · simp at h

end MLSubgenreClassifier

/-- C7 (counterexample to the claim as stated): with no trained models at
    all, `classify('jazz', {})` — 'jazz' has a rule profile table — does NOT
    return method='rules': the empty feature dict scores 0 on every rule
    profile, below the 0.6 acceptance threshold, so the result is the
    terminal method='none' outcome. -/
theorem C7_jazz_empty_features_counterexample :
    MLSubgenreClassifier.classify [] (fun _ _ => none) "jazz"
        ([] : MLSubgenreClassifier.Features) "auto" =
      ⟨none, 0, "none", "jazz"⟩ ∧
    (MLSubgenreClassifier.RULE_BASED_SUBGENRES.find? (fun e => e.1 == "jazz")).isSome = true := by
  constructor <;> decide

/-- C7 (amended): `classify` is total and always lands on one of the three
    methods; with no trained model for 'jazz' it falls through to the rule
    table and returns method='rules' exactly when the rules accept (best
    score ≥ 0.6 yields a subgenre), method='none' otherwise; and for
    'unknown_genre' (no model, no rule table) it returns the valid terminal
    outcome subgenre=None, confidence 0.0, method='none' rather than an
    error. -/
theorem C7_classify_never_raises :
    ∀ (models : List String) (ml : MLSubgenreClassifier.MlOracle)
      (g : String) (f : MLSubgenreClassifier.Features) (m : String),
      (MLSubgenreClassifier.classify models ml g f m).method ∈
        (["ml", "rules", "none"] : List String) ∧
      (models.contains "jazz" = false →
        (MLSubgenreClassifier.classify models ml "jazz" f "auto").method =
          (if (MLSubgenreClassifier.classify_with_rules "jazz" f).1.isSome
           then "rules" else "none")) ∧
      (models.contains "unknown_genre" = false →
        MLSubgenreClassifier.classify models ml "unknown_genre" f "auto" =
          ⟨none, 0, "none", "unknown_genre"⟩) := by
  intro models ml g f m
  refine ⟨?_, ?_, ?_⟩
  · unfold MLSubgenreClassifier.classify
    dsimp only
    repeat' split
    all_goals simp
  · intro hm
    unfold MLSubgenreClassifier.classify
    dsimp only
    simp only [hm, Bool.false_eq_true, if_false, MLSubgenreClassifier.truthyLabel,
      Bool.and_false, if_neg]
    rcases hr : MLSubgenreClassifier.classify_with_rules "jazz" f with ⟨osg, c⟩
    rcases osg with _ | sg
    · simp
    · have hsg : sg ≠ "" := by
        obtain ⟨key, profs, hfind, hmem⟩ :=
          MLSubgenreClassifier.classify_with_rules_label "jazz" f sg c hr
        have htab : MLSubgenreClassifier.RULE_BASED_SUBGENRES.find?
            (fun e => e.1 == "jazz") =
            some ("jazz", [
              ("smooth-jazz", [("acousticness", ⟨0.4, 0.8⟩), ("energy", ⟨0.3, 0.6⟩)]),
              ("bebop", [("tempo", ⟨200, 350⟩), ("instrumentalness", ⟨0.5, 1.0⟩)]),
              ("jazz-fusion", [("energy", ⟨0.6, 0.9⟩), ("instrumentalness", ⟨0.3, 0.8⟩)])]) := by
          decide
        rw [htab] at hfind
        simp only [Option.some.injEq, Prod.mk.injEq] at hfind
        rw [← hfind.2] at hmem
        simp only [List.map_cons, List.map_nil, List.mem_cons,
          List.not_mem_nil, or_false] at hmem
        rcases hmem with rfl | rfl | rfl <;> decide
      simp [hsg]
  · intro hm
    unfold MLSubgenreClassifier.classify
    dsimp only
    simp only [hm, Bool.false_eq_true, if_false, MLSubgenreClassifier.truthyLabel,
      Bool.and_false, if_neg]
    have hr : MLSubgenreClassifier.classify_with_rules "unknown_genre" f = (none, 0) := by
      unfold MLSubgenreClassifier.classify_with_rules
      have hfind : MLSubgenreClassifier.RULE_BASED_SUBGENRES.find?
          (fun e => e.1 == "unknown_genre") = none := by decide
      simp [hfind]
    simp [hr]

/-- C7 (witness): with no trained models and the jazz features
    `{acousticness: 0.5, energy: 0.4}`, the fallback equality of
    `C7_classify_never_raises` is instantiated concretely (the rules accept
    smooth-jazz, so method = 'rules'). -/
theorem C7_classify_never_raises_witness :
    ([] : List String).contains "jazz" = false ∧
    (MLSubgenreClassifier.classify [] (fun _ _ => none) "jazz"
        [("acousticness", 0.5), ("energy", 0.4)] "auto").method =
      (if (MLSubgenreClassifier.classify_with_rules "jazz"
          [("acousticness", 0.5), ("energy", 0.4)]).1.isSome
       then "rules" else "none") :=
  ⟨by decide,
   (C7_classify_never_raises [] (fun _ _ => none) "jazz"
     [("acousticness", 0.5), ("energy", 0.4)] "auto").2.1 (by decide)⟩

/-- C5: in `_is_good_match`, whenever the artist similarity is below 85 the
    all-parentheticals-removed variant cannot win: the best title similarity
    equals the maximum of the as-is, featuring-removed and article-removed
    variants alone (when the parenthetical variant does not exceed that
    maximum it is absorbed by it, and when it does, the <85 artist gate
    rejects it); concretely,
    `is_good_match("Holla Back", "Wrong Artist", "Young'n (Holla Back)",
    "Right Artist")` is False, the computed artist similarity there being
    75 < 85. -/
theorem C5_parens_gate :
    (∀ (gtn otn : String) (a : Nat), a < 85 →
       EnhancedGeniusClient.bestTitleSimilarity gtn otn a =
         Nat.max (Fuzz.fuzzScore gtn otn)
           (Nat.max
             (Fuzz.fuzzScore (EnhancedGeniusClient.removeFeatInfo gtn)
               (EnhancedGeniusClient.removeFeatInfo otn))
             (Fuzz.fuzzScore (EnhancedGeniusClient.remove_articles gtn)
               (EnhancedGeniusClient.remove_articles otn)))) ∧
    EnhancedGeniusClient.is_good_match "Holla Back" "Wrong Artist"
      "Young'n (Holla Back)" "Right Artist" = false ∧
    Fuzz.fuzzScore (PyStr.pyLower "Wrong Artist")
      (EnhancedGeniusClient.mainArtistLower "Right Artist") < 85 := by
  refine ⟨?_, by decide, by decide⟩
  intro gtn otn a ha
  unfold EnhancedGeniusClient.bestTitleSimilarity
  dsimp only
  split
  · rw [if_neg (by omega)]
  · rename_i hnp
    exact Nat.max_eq_left (Nat.le_of_not_lt hnp)

/-- C5 (witness): the gate equality of `C5_parens_gate` instantiated at the
    Holla Back scenario's normalized titles and its artist similarity 75. -/
theorem C5_parens_gate_witness :
    (75 : Nat) < 85 ∧
    EnhancedGeniusClient.bestTitleSimilarity
        (EnhancedGeniusClient.normTitle "Holla Back")
        (EnhancedGeniusClient.normTitle "Young'n (Holla Back)") 75 =
      Nat.max
        (Fuzz.fuzzScore (EnhancedGeniusClient.normTitle "Holla Back")
          (EnhancedGeniusClient.normTitle "Young'n (Holla Back)"))
        (Nat.max
          (Fuzz.fuzzScore
            (EnhancedGeniusClient.removeFeatInfo (EnhancedGeniusClient.normTitle "Holla Back"))
            (EnhancedGeniusClient.removeFeatInfo
              (EnhancedGeniusClient.normTitle "Young'n (Holla Back)")))
          (Fuzz.fuzzScore
            (EnhancedGeniusClient.remove_articles (EnhancedGeniusClient.normTitle "Holla Back"))
            (EnhancedGeniusClient.remove_articles
              (EnhancedGeniusClient.normTitle "Young'n (Holla Back)")))) :=
  ⟨by decide,
   C5_parens_gate.1 (EnhancedGeniusClient.normTitle "Holla Back")
     (EnhancedGeniusClient.normTitle "Young'n (Holla Back)") 75 (by decide)⟩

namespace GenreClassificationSystem

/-- `addVote` adds exactly `w` to the total of the accumulated values. -/
theorem addVote_sum (votes : List (String × ℚ)) (k : String) (w : ℚ) :
    ((addVote votes k w).map (fun e => e.2)).sum =
      (votes.map (fun e => e.2)).sum + w := by
  induction votes with
  | nil => simp [addVote]
  | cons e rest ih =>
    unfold addVote
    by_cases hk : e.1 == k
    · simp only [hk, if_true, List.map_cons, List.sum_cons]
      ring
    · simp only [hk, Bool.false_eq_true, if_false, List.map_cons, List.sum_cons, ih]
      ring

/-- `addVote` keeps all accumulated values nonnegative. -/
theorem addVote_nonneg (votes : List (String × ℚ)) (k : String) (w : ℚ)
    (hv : ∀ v ∈ votes, 0 ≤ v.2) (hw : 0 ≤ w) :
    ∀ v ∈ addVote votes k w, 0 ≤ v.2 := by
  induction votes with
  | nil =>
    intro v hv'
    simp only [addVote, List.mem_singleton] at hv'
    subst hv'
    exact hw
  | cons e rest ih =>
    intro v hv'
    unfold addVote at hv'
    by_cases hk : e.1 == k
    · simp only [hk, if_true, List.mem_cons] at hv'
      rcases hv' with rfl | hmem
      · have := hv e (List.mem_cons_self e rest)
        have h0 : 0 ≤ e.2 := this
        simpa using add_nonneg h0 hw
      · exact hv v (List.mem_cons_of_mem e hmem)
    · simp only [hk, Bool.false_eq_true, if_false, List.mem_cons] at hv'
      rcases hv' with rfl | hmem
      · exact hv v (List.mem_cons_self v rest)
      · exact ih (fun x hx => hv x (List.mem_cons_of_mem e hx)) v hmem

/-- `addVote` never returns the empty list. -/
theorem addVote_ne_nil (votes : List (String × ℚ)) (k : String) (w : ℚ) :
    addVote votes k w ≠ [] := by
  cases votes with
  | nil => simp [addVote]
  | cons e rest =>
    unfold addVote
    split <;> simp

/-- The accumulated-vote fold adds the total vote weight to the running
    sum. -/
theorem foldl_addVote_sum (cls : List GenreClassification) (acc : List (String × ℚ)) :
    (((cls.foldl (fun votes c =>
        addVote votes (map_to_primary_genre c.name) (voteWeight c)) acc)).map
      (fun e => e.2)).sum =
      (acc.map (fun e => e.2)).sum + totalVoteWeight cls := by
  induction cls generalizing acc with
  | nil => simp [totalVoteWeight]
  | cons c rest ih =>
    rw [List.foldl_cons, ih, addVote_sum]
    unfold totalVoteWeight
    simp only [List.map_cons, List.sum_cons]
    ring

/-- The total accumulated weight equals the total vote weight. -/
theorem accumVotes_sum (cls : List GenreClassification) :
    ((accumVotes cls).map (fun e => e.2)).sum = totalVoteWeight cls := by
  unfold accumVotes
  rw [foldl_addVote_sum]
  simp

/-- All accumulated weights are nonnegative when all vote weights are. -/
theorem accumVotes_nonneg (cls : List GenreClassification)
    (h : ∀ c ∈ cls, 0 ≤ voteWeight c) :
    ∀ v ∈ accumVotes cls, 0 ≤ v.2 := by
  unfold accumVotes
  have haux : ∀ (l : List GenreClassification) (acc : List (String × ℚ)),
      (∀ c ∈ l, 0 ≤ voteWeight c) → (∀ v ∈ acc, 0 ≤ v.2) →
      ∀ v ∈ l.foldl (fun votes c =>
        addVote votes (map_to_primary_genre c.name) (voteWeight c)) acc, 0 ≤ v.2 := by
    intro l
    induction l with
    | nil => intro acc _ hacc v hv; exact hacc v hv
    | cons c rest ih =>
      intro acc hl hacc v hv
      rw [List.foldl_cons] at hv
      exact ih _ (fun x hx => hl x (List.mem_cons_of_mem c hx))
        (addVote_nonneg acc _ _ hacc (hl c (List.mem_cons_self c rest))) v hv
  exact haux cls [] h (by simp)

/-- Accumulating a nonempty classification list yields a nonempty vote
    table. -/
theorem accumVotes_ne_nil (cls : List GenreClassification) (h : cls ≠ []) :
    accumVotes cls ≠ [] := by
  unfold accumVotes
  have haux : ∀ (l : List GenreClassification) (acc : List (String × ℚ)),
      acc ≠ [] → l.foldl (fun votes c =>
        addVote votes (map_to_primary_genre c.name) (voteWeight c)) acc ≠ [] := by
    intro l
    induction l with
    | nil => intro acc hacc; exact hacc
    | cons c rest ih =>
      intro acc _
      rw [List.foldl_cons]
      exact ih _ (addVote_ne_nil _ _ _)
  cases cls with
  | nil => exact absurd rfl h
  | cons c rest =>
    rw [List.foldl_cons]
    exact haux rest _ (addVote_ne_nil _ _ _)

/-- `argmaxFirst` of a nonempty table returns an element that dominates every
    entry. -/
theorem argmaxFirst_spec (e : String × ℚ) (rest : List (String × ℚ)) :
    ∃ best, argmaxFirst (e :: rest) = some best ∧ best ∈ e :: rest ∧
      ∀ x ∈ e :: rest, x.2 ≤ best.2 := by
  have haux : ∀ (l : List (String × ℚ)) (b : String × ℚ),
      (l.foldl (fun best x => if x.2 > best.2 then x else best) b) = b ∨
        (l.foldl (fun best x => if x.2 > best.2 then x else best) b) ∈ l := by
    intro l
    induction l with
    | nil => intro b; exact Or.inl rfl
    | cons x rest ih =>
      intro b
      rw [List.foldl_cons]
      rcases ih (if x.2 > b.2 then x else b) with heq | hmem
      · rw [heq]
        split
        · exact Or.inr (List.mem_cons_self x rest)
        · exact Or.inl rfl
      · exact Or.inr (List.mem_cons_of_mem x hmem)
  have hdom : ∀ (l : List (String × ℚ)) (b : String × ℚ),
      b.2 ≤ (l.foldl (fun best x => if x.2 > best.2 then x else best) b).2 ∧
      ∀ x ∈ l, x.2 ≤ (l.foldl (fun best x => if x.2 > best.2 then x else best) b).2 := by
    intro l
    induction l with
    | nil => intro b; exact ⟨le_refl _, by simp⟩
    | cons x rest ih =>
      intro b
      rw [List.foldl_cons]
      have hb : b.2 ≤ (if x.2 > b.2 then x else b).2 := by
        split
        · rename_i hgt; exact le_of_lt hgt
        · exact le_refl _
      have hx : x.2 ≤ (if x.2 > b.2 then x else b).2 := by
        split
        · exact le_refl _
        · rename_i hng; exact le_of_not_lt hng
      refine ⟨le_trans hb (ih _).1, ?_⟩
      intro y hy
      rcases hy with _ | hy
      · exact le_trans hx (ih _).1
      · exact (ih _).2 y (by assumption)
  refine ⟨rest.foldl (fun best x => if x.2 > best.2 then x else best) e, by rfl, ?_, ?_⟩
  · rcases haux rest e with heq | hmem
    · rw [heq]; exact List.mem_cons_self e rest
    · exact List.mem_cons_of_mem e hmem
  · intro x hx
    rcases hx with _ | hx
    · exact (hdom rest e).1
    · exact (hdom rest e).2 x (by assumption)

end GenreClassificationSystem

namespace GenreClassificationSystem

/-- Every source weight the engine can look up is positive (table weights
    0.35/0.30/0.25/0.10, default 0.1). -/
theorem assocGet_source_weight_pos (s : String) :
    0 < assocGet source_weights s 0.1 := by
  unfold assocGet
  rcases h : source_weights.find? (fun e => e.1 == s) with _ | e <;>
    simp only [h]
  · norm_num
  · have hmem : e ∈ source_weights := List.mem_of_find?_eq_some h
    have hall : ∀ x ∈ source_weights, (0:ℚ) < x.2 := by decide
    exact hall e hmem

/-- Vote weights are nonnegative for nonnegative confidences. -/
theorem voteWeight_nonneg (c : GenreClassification) (h : 0 ≤ c.confidence) :
    0 ≤ voteWeight c :=
  mul_nonneg (assocGet_source_weight_pos c.source).le h

/-- Vote weights are positive for positive confidences. -/
theorem voteWeight_pos (c : GenreClassification) (h : 0 < c.confidence) :
    0 < voteWeight c :=
  mul_pos (assocGet_source_weight_pos c.source) h

/-- A list of nonpositive rationals has nonpositive sum. -/
theorem list_sum_nonpos (l : List ℚ) (h : ∀ x ∈ l, x ≤ 0) : l.sum ≤ 0 := by
  induction l with
  | nil => simp
  | cons a t ih =>
    simp only [List.sum_cons]
    have ha := h a (List.mem_cons_self a t)
    have ht := ih (fun x hx => h x (List.mem_cons_of_mem a hx))
    linarith

/-- A list of rationals with positive sum contains a positive element. -/
theorem exists_pos_of_sum_pos (l : List ℚ) (h : 0 < l.sum) : ∃ v ∈ l, 0 < v := by
  by_contra hno
  push_neg at hno
  have : l.sum ≤ 0 := list_sum_nonpos l hno
  linarith

/-- The confidence score of the reasoning engine, characterized: in `[0,1]`,
    zero exactly when the total accumulated weight is zero, and positive as
    soon as one classification has positive confidence. -/
theorem engine_confidence_spec (p : ArtistGenreProfile)
    (hc : ∀ c ∈ p.classifications, 0 ≤ c.confidence) :
    0 ≤ (apply_ari_reasoning_engine p).confidence_score ∧
    (apply_ari_reasoning_engine p).confidence_score ≤ 1 ∧
    ((apply_ari_reasoning_engine p).confidence_score = 0 ↔
      totalVoteWeight p.classifications = 0) ∧
    ((∃ c ∈ p.classifications, 0 < c.confidence) →
      0 < (apply_ari_reasoning_engine p).confidence_score) := by
  unfold apply_ari_reasoning_engine
  by_cases hnil : p.classifications = []
  · simp [hnil, totalVoteWeight]
  · have hie : p.classifications.isEmpty = false := by
      simpa [List.isEmpty_iff] using hnil
    have hvne : accumVotes p.classifications ≠ [] := accumVotes_ne_nil _ hnil
    rcases hv : accumVotes p.classifications with _ | ⟨e, rest⟩
    · exact absurd hv hvne
    · obtain ⟨best, hbEq, hbMem, hbDom⟩ := argmaxFirst_spec e rest
      have hnn : ∀ v ∈ e :: rest, 0 ≤ v.2 := by
        rw [← hv]
        exact accumVotes_nonneg _ (fun c hcm => voteWeight_nonneg c (hc c hcm))
      have htot : ((e :: rest).map (fun x => x.2)).sum =
          totalVoteWeight p.classifications := by
        rw [← hv, accumVotes_sum]
      have htotnn : 0 ≤ ((e :: rest).map (fun x => x.2)).sum := by
        apply List.sum_nonneg
        intro x hx
        obtain ⟨y, hy, rfl⟩ := List.mem_map.mp hx
        exact hnn y hy
      have hble : best.2 ≤ ((e :: rest).map (fun x => x.2)).sum := by
        apply List.single_le_sum
        · intro x hx
          obtain ⟨y, hy, rfl⟩ := List.mem_map.mp hx
          exact hnn y hy
        · exact List.mem_map.mpr ⟨best, hbMem, rfl⟩
      have hbnn : 0 ≤ best.2 := hnn best hbMem
      have hposbest : 0 < ((e :: rest).map (fun x => x.2)).sum → 0 < best.2 := by
        intro hpos
        obtain ⟨v, hvm, hvpos⟩ := exists_pos_of_sum_pos _ hpos
        obtain ⟨y, hy, rfl⟩ := List.mem_map.mp hvm
        exact lt_of_lt_of_le hvpos (hbDom y hy)
      simp only [hie, Bool.false_eq_true, if_false, hv, hbEq]
      by_cases hpos : ((e :: rest).map (fun x => x.2)).sum > 0
      · rw [if_pos hpos]
        have hb := hposbest hpos
        refine ⟨div_nonneg hbnn hpos.le, (div_le_one hpos).mpr hble, ?_, ?_⟩
        · constructor
          · intro h0
            exact absurd h0 (ne_of_gt (div_pos hb hpos))
          · intro h0
            rw [htot] at hpos
            exact absurd h0 (ne_of_gt hpos)
        · intro _
          exact div_pos hb hpos
      · rw [if_neg hpos]
        have h0 : ((e :: rest).map (fun x => x.2)).sum = 0 :=
          le_antisymm (le_of_not_lt hpos) htotnn
        refine ⟨le_refl 0, by norm_num, ?_, ?_⟩
        · rw [← htot, h0]
        · intro hex
          exfalso
          obtain ⟨c, hcm, hcpos⟩ := hex
          have h1 : 0 < totalVoteWeight p.classifications := by
            unfold totalVoteWeight
            have hmem : voteWeight c ∈ p.classifications.map voteWeight :=
              List.mem_map.mpr ⟨c, hcm, rfl⟩
            have hle := List.single_le_sum
              (fun x hx => by
                obtain ⟨y, hy, rfl⟩ := List.mem_map.mp hx
                exact voteWeight_nonneg y (hc y hy)) _ hmem
            exact lt_of_lt_of_le (voteWeight_pos c hcpos) hle
          rw [← htot] at h1
          exact absurd h1 hpos

end GenreClassificationSystem

/-- C2 (counterexample to the claim as stated): a profile holding one
    classification whose reported confidence is 0 (the data-model range is
    `float[0,1]`) is nonempty, yet the engine computes confidence_score 0:
    the total accumulated weight is 0 so the guarded division returns 0.0 —
    "confidence_score equals 0 exactly when sources is empty" fails in the
    right-to-left direction. -/
theorem C2_zero_confidence_counterexample :
    (GenreClassificationSystem.apply_ari_reasoning_engine
        ⟨"a", [⟨"pop", 0, "spotify"⟩], 0, none, [], []⟩).confidence_score = 0 ∧
    (GenreClassificationSystem.ArtistGenreProfile.classifications
        ⟨"a", [⟨"pop", 0, "spotify"⟩], 0, none, [], []⟩) ≠ [] := by
  constructor <;> decide

/-- C2 (amended): for profiles whose classification confidences are
    nonnegative (the data-model range), the engine's confidence_score lies in
    `[0,1]`; it equals 0 exactly when the total accumulated vote weight is 0
    — in particular when the classification list is empty — and it is
    strictly positive as soon as at least one classification carries strictly
    positive confidence (as every classification produced by
    `classify_artist`'s sources does: fixed confidences 0.7/0.8/0.6, and
    Last.fm tags filtered at > 0.4). -/
theorem C2_confidence_in_unit_interval :
    ∀ p : GenreClassificationSystem.ArtistGenreProfile,
      (∀ c ∈ p.classifications, 0 ≤ c.confidence) →
      0 ≤ (GenreClassificationSystem.apply_ari_reasoning_engine p).confidence_score ∧
      (GenreClassificationSystem.apply_ari_reasoning_engine p).confidence_score ≤ 1 ∧
      ((GenreClassificationSystem.apply_ari_reasoning_engine p).confidence_score = 0 ↔
        GenreClassificationSystem.totalVoteWeight p.classifications = 0) ∧
      (p.classifications = [] →
        (GenreClassificationSystem.apply_ari_reasoning_engine p).confidence_score = 0) ∧
      ((∃ c ∈ p.classifications, 0 < c.confidence) →
        0 < (GenreClassificationSystem.apply_ari_reasoning_engine p).confidence_score) := by
  intro p hc
  obtain ⟨h1, h2, h3, h4⟩ := GenreClassificationSystem.engine_confidence_spec p hc
  refine ⟨h1, h2, h3, ?_, h4⟩
  intro hemp
  apply h3.mpr
  rw [hemp]
  rfl

/-- C2 (witness): a profile with one positive-confidence Spotify vote has
    strictly positive confidence score, by `C2_confidence_in_unit_interval`. -/
theorem C2_confidence_in_unit_interval_witness :
    (∀ c ∈ (GenreClassificationSystem.ArtistGenreProfile.classifications
        ⟨"w", [⟨"dance pop", 0.7, "spotify"⟩], 0, none, [], []⟩), 0 ≤ c.confidence) ∧
    0 < (GenreClassificationSystem.apply_ari_reasoning_engine
        ⟨"w", [⟨"dance pop", 0.7, "spotify"⟩], 0, none, [], []⟩).confidence_score :=
  ⟨by decide,
   (C2_confidence_in_unit_interval
     ⟨"w", [⟨"dance pop", 0.7, "spotify"⟩], 0, none, [], []⟩
     (by decide)).2.2.2.2 ⟨⟨"dance pop", 0.7, "spotify"⟩, by decide, by decide⟩⟩

namespace GenreClassificationSystem

/-- A crossover tag always starts with the character 'p'. -/
theorem crossTag_head (x y : String) :
    (crossTag x y).data.head? = some 'p' := by
  have hd : (crossTag x y).data =
      'p' :: ("rimary_".data ++ x.data ++ "_secondary_".data ++ y.data) := by
    simp [crossTag, String.data_append]
  rw [hd]
  rfl

/-- No crossover tag is the `multi_genre_crossover` indicator. -/
theorem crossTag_ne_multi (x y : String) :
    crossTag x y ≠ "multi_genre_crossover" := by
  intro h
  have h1 := congrArg (fun s => s.data.head?) h
  simp only [crossTag_head] at h1
  exact absurd h1 (by decide)

/-- No crossover tag is the `high_genre_diversity` indicator. -/
theorem crossTag_ne_diversity (x y : String) :
    crossTag x y ≠ "high_genre_diversity" := by
  intro h
  have h1 := congrArg (fun s => s.data.head?) h
  simp only [crossTag_head] at h1
  exact absurd h1 (by decide)

end GenreClassificationSystem

/-- C4 (counterexample to the claim as stated): with votes pop ↦ 0.30 and
    rock ↦ 0.18 the second-place total equals exactly 60% of the winner's
    (0.18 = 0.6 · 0.30), yet `_detect_crossover_indicators` emits nothing:
    the code requires the second strength to be strictly greater than 60% of
    the first (`secondary_strength > primary_strength * 0.6`), not ≥. -/
theorem C4_sixty_percent_boundary_counterexample :
    GenreClassificationSystem.sortDesc
        (GenreClassificationSystem.accumVotes
          [⟨"pop", 1, "spotify"⟩, ⟨"rock", 0.6, "spotify"⟩]) =
      [("pop", 0.3), ("rock", 0.18)] ∧
    (0.18 : ℚ) = 0.6 * 0.3 ∧
    GenreClassificationSystem.detect_crossover_indicators
        ⟨"a", [⟨"pop", 1, "spotify"⟩, ⟨"rock", 0.6, "spotify"⟩], 0, none, [], []⟩ = [] := by
  refine ⟨by decide, by decide, by decide⟩

/-- C4 (amended): for every profile whose per-primary-genre accumulated
    weights have at least two entries (after the stable descending sort),
    the indicators contain `multi_genre_crossover` if and only if the
    second-place total is strictly greater than 60% of the winner's; in that
    case the descriptive `primary_<winner>_secondary_<runner-up>` tag is also
    present; when the strict-60% test fails no crossover tag of either form
    is emitted; and whenever the profile has more than 5 secondary tags the
    indicators contain `high_genre_diversity`. -/
theorem C4_crossover_detection :
    ∀ (p : GenreClassificationSystem.ArtistGenreProfile)
      (g1 g2 : String × ℚ) (rest : List (String × ℚ)),
      GenreClassificationSystem.sortDesc
        (GenreClassificationSystem.accumVotes p.classifications) = g1 :: g2 :: rest →
      (("multi_genre_crossover" ∈
          GenreClassificationSystem.detect_crossover_indicators p) ↔
        g2.2 > g1.2 * 0.6) ∧
      (g2.2 > g1.2 * 0.6 →
        GenreClassificationSystem.crossTag g1.1 g2.1 ∈
          GenreClassificationSystem.detect_crossover_indicators p) ∧
      (¬(g2.2 > g1.2 * 0.6) → ∀ x y,
        GenreClassificationSystem.crossTag x y ∉
          GenreClassificationSystem.detect_crossover_indicators p) ∧
      (p.secondary_tags.length > 5 →
        "high_genre_diversity" ∈
          GenreClassificationSystem.detect_crossover_indicators p) := by
  intro p g1 g2 rest hsort
  unfold GenreClassificationSystem.detect_crossover_indicators
  simp only [hsort]
  by_cases hgt : g2.2 > g1.2 * 0.6
  · simp only [hgt, if_true]
    by_cases hdiv : p.secondary_tags.length > 5 <;>
      simp [hdiv, hgt, List.mem_cons]
  · simp only [hgt, if_false]
    by_cases hdiv : p.secondary_tags.length > 5
    · simp only [hdiv, if_true, List.nil_append]
      refine ⟨?_, ?_, ?_, ?_⟩
      · constructor
        · intro h
          simp only [List.mem_singleton] at h
          exact absurd h (by decide)
        · intro h
          exact h.elim
      · intro h
        exact h.elim
      · intro _ x y h
        simp only [List.mem_singleton] at h
        exact GenreClassificationSystem.crossTag_ne_diversity x y h
      · intro _
        simp
    · simp only [hdiv, if_false]
      refine ⟨?_, ?_, ?_, ?_⟩
      · simp
      · intro h
        exact h.elim
      · intro _ x y h
        simp at h
      · intro h
        exact h.elim

/-- C4 (witness): pop ↦ 0.30, rock ↦ 0.21 (0.21 > 60% of 0.30): both
    crossover indicators are emitted, by `C4_crossover_detection`. -/
theorem C4_crossover_detection_witness :
    GenreClassificationSystem.sortDesc
        (GenreClassificationSystem.accumVotes
          (GenreClassificationSystem.ArtistGenreProfile.classifications
            ⟨"w2", [⟨"pop", 1, "spotify"⟩, ⟨"rock", 0.7, "spotify"⟩], 0, none, [], []⟩)) =
      ("pop", 0.3) :: ("rock", 0.21) :: [] ∧
    "multi_genre_crossover" ∈
      GenreClassificationSystem.detect_crossover_indicators
        ⟨"w2", [⟨"pop", 1, "spotify"⟩, ⟨"rock", 0.7, "spotify"⟩], 0, none, [], []⟩ ∧
    GenreClassificationSystem.crossTag "pop" "rock" ∈
      GenreClassificationSystem.detect_crossover_indicators
        ⟨"w2", [⟨"pop", 1, "spotify"⟩, ⟨"rock", 0.7, "spotify"⟩], 0, none, [], []⟩ :=
  ⟨by decide,
   (C4_crossover_detection
     ⟨"w2", [⟨"pop", 1, "spotify"⟩, ⟨"rock", 0.7, "spotify"⟩], 0, none, [], []⟩
     ("pop", 0.3) ("rock", 0.21) [] (by decide)).1.mpr (by decide),
   (C4_crossover_detection
     ⟨"w2", [⟨"pop", 1, "spotify"⟩, ⟨"rock", 0.7, "spotify"⟩], 0, none, [], []⟩
     ("pop", 0.3) ("rock", 0.21) [] (by decide)).2.1 (by decide)⟩

namespace ProducerGenrePatterns

open GenreClassificationSystem

/-- Adding a fresh key appends it to the accumulator. -/
theorem addVote_fresh (acc : List (String × ℚ)) (x : String) (w : ℚ)
    (h : ∀ e ∈ acc, e.1 ≠ x) : addVote acc x w = acc ++ [(x, w)] := by
  induction acc with
  | nil => rfl
  | cons e rest ih =>
    unfold addVote
    have hne : (e.1 == x) = false := by
      simp only [beq_eq_false_iff_ne, ne_eq]
      exact h e (List.mem_cons_self e rest)
    simp only [hne, Bool.false_eq_true, if_false, List.cons_append]
    rw [ih (fun y hy => h y (List.mem_cons_of_mem e hy))]

/-- On a duplicate-free list the counter is just each element paired with
    count one. -/
theorem counterOf_nodup (xs : List String) (h : xs.Nodup) :
    counterOf xs = xs.map (fun x => (x, (1:ℚ))) := by
  unfold counterOf
  suffices haux : ∀ (l : List String) (acc : List (String × ℚ)),
      l.Nodup → (∀ x ∈ l, ∀ e ∈ acc, e.1 ≠ x) →
      l.foldl (fun acc x => addVote acc x 1) acc =
        acc ++ l.map (fun x => (x, (1:ℚ))) by
    simpa using haux xs [] h (by simp)
  intro l
  induction l with
  | nil => intro acc _ _; simp
  | cons x rest ih =>
    intro acc hnd hfresh
    rw [List.foldl_cons, addVote_fresh acc x 1
      (hfresh x (List.mem_cons_self x rest))]
    rw [ih (acc ++ [(x, 1)]) (List.Nodup.of_cons hnd) ?_]
    · simp
    · intro y hy e he
      rcases List.mem_append.mp he with hacc | hx
      · exact hfresh y (List.mem_cons_of_mem x hy) e hacc
      · simp only [List.mem_singleton] at hx
        subst hx
        have : x ≠ y := by
          intro hxy
          subst hxy
          exact (List.nodup_cons.mp hnd).1 hy
        simpa using this
/-- A stable descending sort leaves a constant-weight table unchanged. -/
theorem sortDesc_const_one (l : List (String × ℚ)) (h : ∀ e ∈ l, e.2 = 1) :
    sortDesc l = l := by
  induction l with
  | nil => rfl
  | cons x rest ih =>
    unfold sortDesc
    rw [ih (fun e he => h e (List.mem_cons_of_mem x he))]
    cases rest with
    | nil => rfl
    | cons y ys =>
      unfold insertDesc
      have hx := h x (List.mem_cons_self x (y :: ys))
      have hy := h y (List.mem_cons_of_mem x (List.mem_cons_self y ys))
      rw [if_pos (by rw [hx, hy])]

/-- On a duplicate-free list `most_common(n)` is just the first `n` elements
    (all counts are one; the stable sort preserves first-occurrence
    order). -/
theorem mostCommon_nodup (n : Nat) (xs : List String) (h : xs.Nodup) :
    mostCommon n xs = xs.take n := by
  unfold mostCommon
  rw [counterOf_nodup xs h, sortDesc_const_one]
  · rw [← List.map_take, List.map_map]
    have : List.map ((fun (e : String × ℚ) => e.1) ∘ fun x => (x, (1:ℚ))) (xs.take n) =
        List.map id (xs.take n) := by
      apply List.map_congr_left
      intro z _
      rfl
    rw [this, List.map_id]
  · intro e he
    obtain ⟨y, _, rfl⟩ := List.mem_map.mp he
    rfl

end ProducerGenrePatterns

namespace ProducerGenrePatterns

/-- The signature lookup for Max Martin with year 2002: concrete except for
    the set-enumeration order applied to the combined subgenre list. -/
theorem gps_maxmartin (σ : SetOrder) :
    get_producer_subgenres σ "Max Martin" (some 2002) =
      some ⟨"pop", σ maxMartinCombined, 0.95,
        "Legendary pop producer, Britney/Backstreet Boys era", none⟩ := by
  rfl

/-- Evaluation of the full producer analysis for `['Max Martin']` with year
    2002, parametric in the set-enumeration order. -/
theorem analyze_maxmartin (σ : SetOrder) :
    analyze_producer_contribution σ ["Max Martin"] (some 2002) =
      (if (σ maxMartinCombined).isEmpty then none
       else some ⟨mostCommon 3 (σ maxMartinCombined), 0.95, 1,
         "producer_specialization"⟩) := by
  unfold analyze_producer_contribution
  simp only [gps_maxmartin, List.filterMap_cons, List.filterMap_nil, List.isEmpty_cons,
    Bool.false_eq_true, if_false, List.foldl_cons, List.foldl_nil, List.nil_append,
    List.map_cons, List.map_nil, List.sum_cons, List.sum_nil, List.length_cons,
    List.length_nil, Nat.cast_one, add_zero]
  norm_num

end ProducerGenrePatterns

namespace ProducerGenrePatterns

/-- C6 counterexample: two set-enumeration orders, both admissible for
    CPython's `list(set(...))` (each is a permutation of the distinct
    elements of the combined subgenre list), make
    `analyze_producer_contribution(['Max Martin'], 2002)` return
    `suggested_subgenres` lists with different element orders — the ranking
    is not deterministic across runs of the hash-randomized interpreter. -/
theorem C6_set_order_counterexample :
    analyze_producer_contribution (fun _ => ["dance-pop", "teen-pop", "electropop"])
        ["Max Martin"] (some 2002) =
      some ⟨["dance-pop", "teen-pop", "electropop"], 0.95, 1, "producer_specialization"⟩ ∧
    analyze_producer_contribution (fun _ => ["electropop", "teen-pop", "dance-pop"])
        ["Max Martin"] (some 2002) =
      some ⟨["electropop", "teen-pop", "dance-pop"], 0.95, 1, "producer_specialization"⟩ ∧
    List.Perm ["dance-pop", "teen-pop", "electropop"] maxMartinCombined.dedup ∧
    List.Perm ["electropop", "teen-pop", "dance-pop"] maxMartinCombined.dedup ∧
    (["dance-pop", "teen-pop", "electropop"] : List String) ≠
      ["electropop", "teen-pop", "dance-pop"] :=
  ⟨by decide, by decide, by decide, by decide, by decide⟩

/-- C6 (amended): for Max Martin with year 2002 the enrichment is
    deterministic only up to the `list(set(...))` enumeration order σ: for
    every admissible σ (a permutation of the distinct combined subgenres)
    the call succeeds, its `suggested_subgenres` is exactly `σ` applied to
    the combined list (all counts are 1 after the set collapses duplicates,
    so frequency ranking preserves σ's order and `top 3` keeps all three),
    with confidence 0.95 and one matched producer; the multiset of
    suggestions ({dance-pop, teen-pop, electropop}) is fixed, but the order
    varies with σ rather than being ranked by signature-table order. -/
theorem C6_producer_enrichment_by_set_order (σ : SetOrder)
    (hσ : (σ maxMartinCombined).Perm maxMartinCombined.dedup) :
    analyze_producer_contribution σ ["Max Martin"] (some 2002) =
      some ⟨σ maxMartinCombined, 0.95, 1, "producer_specialization"⟩ ∧
    (σ maxMartinCombined).Perm ["dance-pop", "teen-pop", "electropop"] := by
  have hlen : (σ maxMartinCombined).length = 3 := by
    rw [hσ.length_eq]; decide
  have hnodup : (σ maxMartinCombined).Nodup :=
    (hσ.nodup_iff).mpr (List.nodup_dedup _)
  have hmost : mostCommon 3 (σ maxMartinCombined) = σ maxMartinCombined := by
    rw [mostCommon_nodup _ _ hnodup, List.take_of_length_le (by omega)]
  have hempty : (σ maxMartinCombined).isEmpty = false := by
    cases h : σ maxMartinCombined with
    | nil => rw [h] at hlen; simp at hlen
    | cons a l => simp [List.isEmpty]
  refine ⟨?_, hσ.trans (by decide)⟩
  rw [analyze_maxmartin σ, hempty, hmost]
  simp

/-- Witness for C6: the identity-on-distinct-elements enumeration order is
    admissible and yields the stated result. -/
theorem C6_producer_enrichment_by_set_order_witness :
    analyze_producer_contribution (fun _ => ["dance-pop", "teen-pop", "electropop"])
      ["Max Martin"] (some 2002) =
      some ⟨["dance-pop", "teen-pop", "electropop"], 0.95, 1, "producer_specialization"⟩ ∧
    List.Perm ["dance-pop", "teen-pop", "electropop"]
      ["dance-pop", "teen-pop", "electropop"] :=
  C6_producer_enrichment_by_set_order
    (fun _ => ["dance-pop", "teen-pop", "electropop"]) (by decide)

end ProducerGenrePatterns

namespace GenreClassificationSystem

/-- C1 counterexample: in `c1DbMulti` the subject's single catalog entry
    carries two genre rows, both with confidence above 0.8 — so all persisted
    entries are covered by high-confidence classifications and at least one
    exists — yet `classify_artist` still invokes the Spotify source adapter:
    `_get_existing_classification` compares the COUNT of qualifying
    `song_genres` rows (2) with the number of songs (1), so full coverage
    with multiple rows per song fails the equality check. -/
theorem C1_multirow_counterexample :
    (∀ s ∈ artistSongs c1DbMulti "aa", ∃ r ∈ c1DbMulti.song_genres,
        r.song_id = s.song_id ∧ r.confidence_score > 0.8) ∧
    artistSongs c1DbMulti "aa" ≠ [] ∧
    (classify_artist c1Env c1DbMulti [] "aa").2.1 = ["spotify"] :=
  ⟨by decide, by decide, by decide⟩

/-- C1 (amended): the early return holds under the condition the code
    actually tests — the number of high-confidence `song_genres` rows equals
    the number of catalog entries (which coincides with full coverage only
    when no song has two such rows) and is positive. Then `classify_artist`
    returns a profile read back from the first qualifying row, invokes no
    source adapter, leaves the cache untouched, and a second run (with any
    cache state) returns the identical profile. -/
theorem C1_idempotent_when_counts_align (env : SourceEnv) (db : Db)
    (cache cache' : List (String × ArtistGenreProfile)) (artist_name : String)
    (hcount : (qualifyingRows db artist_name).length =
      (artistSongs db artist_name).length)
    (hne : artistSongs db artist_name ≠ []) :
    ∃ p row,
      (qualifyingRows db artist_name).head? = some row ∧
      classify_artist env db cache artist_name = (p, [], cache) ∧
      classify_artist env db cache' artist_name = (p, [], cache') ∧
      p.primary_genre = some row.genre_name ∧
      p.confidence_score = row.confidence_score := by
  have hslen : 0 < (artistSongs db artist_name).length :=
    List.length_pos.mpr hne
  have hqlen : 0 < (qualifyingRows db artist_name).length := hcount ▸ hslen
  obtain ⟨row, rest, hrows⟩ : ∃ row rest,
      qualifyingRows db artist_name = row :: rest := by
    cases h : qualifyingRows db artist_name with
    | nil => rw [h] at hqlen; simp at hqlen
    | cons a l => exact ⟨a, l, rfl⟩
  have hmem : row ∈ qualifyingRows db artist_name := by
    rw [hrows]; exact List.mem_cons_self row rest
  have hconf : row.confidence_score > 0.8 := by
    unfold qualifyingRows at hmem
    simp only [List.mem_filter, Bool.and_eq_true, decide_eq_true_eq] at hmem
    exact hmem.2.2
  have hempty : (artistSongs db artist_name).isEmpty = false := by
    cases h : artistSongs db artist_name with
    | nil => exact absurd h hne
    | cons a l => simp [List.isEmpty]
  have hexist : get_existing_classification db artist_name =
      some { artist_name := artist_name, primary_genre := some row.genre_name,
             confidence_score := row.confidence_score } := by
    unfold get_existing_classification
    simp only [hempty, Bool.false_eq_true, if_false]
    have hcond : (((qualifyingRows db artist_name).length ==
        (artistSongs db artist_name).length) = true) := beq_iff_eq.mpr hcount
    simp only [hcond, Bool.true_and, decide_eq_true_eq]
    rw [if_pos hqlen, hrows]
    rfl
  refine ⟨{ artist_name := artist_name, primary_genre := some row.genre_name,
            confidence_score := row.confidence_score }, row,
      by rw [hrows]; rfl, ?_, ?_, rfl, rfl⟩
  · unfold classify_artist
    simp only [hexist]
    rw [if_pos hconf]
  · unfold classify_artist
    simp only [hexist]
    rw [if_pos hconf]

/-- Witness for C1 at the single-row database: the early return fires with
    the persisted genre "pop" at confidence 0.9. -/
theorem C1_idempotent_when_counts_align_witness :
    (qualifyingRows c1DbOk "aa").length = (artistSongs c1DbOk "aa").length ∧
    artistSongs c1DbOk "aa" ≠ [] ∧
    ∃ p row,
      (qualifyingRows c1DbOk "aa").head? = some row ∧
      classify_artist c1Env c1DbOk [] "aa" = (p, [], []) ∧
      classify_artist c1Env c1DbOk [] "aa" = (p, [], []) ∧
      p.primary_genre = some row.genre_name ∧
      p.confidence_score = row.confidence_score :=
  ⟨by decide, by decide,
    C1_idempotent_when_counts_align c1Env c1DbOk [] [] "aa" (by decide) (by decide)⟩

end GenreClassificationSystem

namespace Re

open PyStr

theorem all_of_suffix {s' s : List Char} (h : s' <:+ s)
    (hall : s.all isPyWs = true) : s'.all isPyWs = true := by
  rw [List.all_eq_true] at *
  exact fun x hx => hall x (h.sublist.subset hx)

theorem word_of_ws {c : Char} (h : isPyWs c = true) : isWordChar c = false := by
  have h2 : c = ' ' ∨ c = '\t' ∨ c = '\n' ∨ c = '\r' ∨ c = '\x0b' ∨ c = '\x0c' := by
    simpa [isPyWs, Bool.or_eq_true, beq_iff_eq, or_assoc] using h
  rcases h2 with rfl | rfl | rfl | rfl | rfl | rfl <;> decide

/-- If the continuation rejects every suffix reached with a whitespace (or
    absent) previous character, the matcher rejects whitespace-only input. -/
theorem mrun_none_of_k_none :
    ∀ (fuel : Nat) (r : RE) (prev : Option Char) (s : List Char)
      (k : Option Char → List Char → Option (List Char)),
      s.all isPyWs = true →
      (∀ c, prev = some c → isPyWs c = true) →
      (∀ p' s', (∀ c, p' = some c → isPyWs c = true) → s' <:+ s → k p' s' = none) →
      mrun fuel r prev s k = none := by
  intro fuel
  induction fuel with
  | zero => intro r prev s k _ _ _; rfl
  | succ fuel ih =>
    intro r prev s k hs hprev hk
    cases r with
    | emp => exact hk prev s hprev (List.suffix_refl s)
    | cls p =>
      simp only [mrun]
      cases s with
      | nil => rfl
      | cons c rest =>
        simp only [List.all_cons, Bool.and_eq_true] at hs
        by_cases hp : p c
        · simp only [hp, if_true]
          exact hk (some c) rest (fun d hd => by cases hd; exact hs.1)
            (List.suffix_cons c rest)
        · simp [hp]
    | seq a b =>
      simp only [mrun]
      exact ih a prev s _ hs hprev (fun p' s' hp' hs' =>
        ih b p' s' k (all_of_suffix hs' hs) hp'
          (fun p'' s'' hp'' hs'' => hk p'' s'' hp'' (hs''.trans hs')))
    | alt a b =>
      simp only [mrun]
      rw [ih a prev s k hs hprev hk]
      exact ih b prev s k hs hprev hk
    | starG a =>
      simp only [mrun]
      rw [ih a prev s _ hs hprev (fun p' s' hp' hs' =>
        ih (.starG a) p' s' k (all_of_suffix hs' hs) hp'
          (fun p'' s'' hp'' hs'' => hk p'' s'' hp'' (hs''.trans hs')))]
      exact hk prev s hprev (List.suffix_refl s)
    | starL a =>
      simp only [mrun]
      rw [hk prev s hprev (List.suffix_refl s)]
      exact ih a prev s _ hs hprev (fun p' s' hp' hs' =>
        ih (.starL a) p' s' k (all_of_suffix hs' hs) hp'
          (fun p'' s'' hp'' hs'' => hk p'' s'' hp'' (hs''.trans hs')))
    | optG a =>
      simp only [mrun]
      rw [ih a prev s k hs hprev hk]
      exact hk prev s hprev (List.suffix_refl s)
    | bnd =>
      simp only [mrun]
      split
      · exact hk prev s hprev (List.suffix_refl s)
      · rfl
    | bos =>
      simp only [mrun]
      cases prev with
      | none => exact hk none s hprev (List.suffix_refl s)
      | some c => rfl
    | eos =>
      simp only [mrun]
      split
      · exact hk prev s hprev (List.suffix_refl s)
      · rfl

/-- Soundness of `okWs`: a pattern with `okWs = false` cannot make progress
    inside whitespace-only input (with whitespace-or-absent previous
    character), whatever the continuation. -/
theorem mrun_ws_none :
    ∀ (fuel : Nat) (r : RE) (prev : Option Char) (s : List Char)
      (k : Option Char → List Char → Option (List Char)),
      s.all isPyWs = true →
      (∀ c, prev = some c → isPyWs c = true) →
      okWs r = false →
      mrun fuel r prev s k = none := by
  intro fuel
  induction fuel with
  | zero => intro r prev s k _ _ _; rfl
  | succ fuel ih =>
    intro r prev s k hs hprev hok
    cases r with
    | emp => simp [okWs] at hok
    | cls p =>
      simp only [mrun]
      cases s with
      | nil => rfl
      | cons c rest =>
        simp only [List.all_cons, Bool.and_eq_true] at hs
        have hc : p c = false := by
          simp only [okWs, List.any_eq_false, List.mem_cons, List.not_mem_nil] at hok
          have h2 : c = ' ' ∨ c = '\t' ∨ c = '\n' ∨ c = '\r' ∨ c = '\x0b' ∨ c = '\x0c' := by
            simpa [isPyWs, Bool.or_eq_true, beq_iff_eq, or_assoc] using hs.1
          rcases h2 with rfl | rfl | rfl | rfl | rfl | rfl <;>
            simpa using hok _ (by simp)
        simp [hc]
    | seq a b =>
      simp only [okWs, Bool.and_eq_false_iff] at hok
      simp only [mrun]
      rcases hok with h | h
      · exact ih a prev s _ hs hprev h
      · exact mrun_none_of_k_none fuel a prev s _ hs hprev
          (fun p' s' hp' hs' => ih b p' s' k (all_of_suffix hs' hs) hp' h)
    | alt a b =>
      simp only [okWs, Bool.or_eq_false_iff] at hok
      simp only [mrun]
      rw [ih a prev s k hs hprev hok.1]
      exact ih b prev s k hs hprev hok.2
    | starG a => simp [okWs] at hok
    | starL a => simp [okWs] at hok
    | optG a => simp [okWs] at hok
    | bnd =>
      simp only [mrun]
      have hb : atBoundary prev s = false := by
        unfold atBoundary
        cases prev with
        | none =>
          cases s with
          | nil => rfl
          | cons c rest =>
            simp only [List.all_cons, Bool.and_eq_true] at hs
            simp [word_of_ws hs.1]
        | some d =>
          have hd : isWordChar d = false := word_of_ws (hprev d rfl)
          cases s with
          | nil => simp [hd]
          | cons c rest =>
            simp only [List.all_cons, Bool.and_eq_true] at hs
            simp [hd, word_of_ws hs.1]
      simp [hb]
    | bos => simp [okWs] at hok
    | eos => simp [okWs] at hok

/-- A successful match leaves a suffix of the input. -/
theorem mrun_suffix (s0 : List Char) :
    ∀ (fuel : Nat) (r : RE) (prev : Option Char) (s : List Char)
      (k : Option Char → List Char → Option (List Char)) (res : List Char),
      s <:+ s0 →
      (∀ p' s', s' <:+ s0 → k p' s' = some res → res <:+ s0) →
      mrun fuel r prev s k = some res → res <:+ s0 := by
  intro fuel
  induction fuel with
  | zero => intro r prev s k res _ _ h; cases h
  | succ fuel ih =>
    intro r prev s k res hsub hk h
    cases r with
    | emp => exact hk prev s hsub h
    | cls p =>
      simp only [mrun] at h
      cases s with
      | nil => dsimp only at h; cases h
      | cons c rest =>
        dsimp only at h
        by_cases hp : p c
        · rw [if_pos hp] at h
          exact hk (some c) rest ((List.suffix_cons c rest).trans hsub) h
        · rw [if_neg hp] at h; cases h
    | seq a b =>
      simp only [mrun] at h
      exact ih a prev s _ res hsub
        (fun p' s' hs' hb => ih b p' s' k res hs' hk hb) h
    | alt a b =>
      simp only [mrun] at h
      cases hma : mrun fuel a prev s k with
      | some res2 =>
        rw [hma] at h
        injection h with h2
        subst h2
        exact ih a prev s k _ hsub hk hma
      | none =>
        rw [hma] at h
        exact ih b prev s k res hsub hk h
    | starG a =>
      simp only [mrun] at h
      cases hma : mrun fuel a prev s (fun p' s' => mrun fuel (.starG a) p' s' k) with
      | some res2 =>
        rw [hma] at h
        injection h with h2
        subst h2
        exact ih a prev s _ _ hsub
          (fun p' s' hs' hb => ih (.starG a) p' s' k _ hs' hk hb) hma
      | none =>
        rw [hma] at h
        exact hk prev s hsub h
    | starL a =>
      simp only [mrun] at h
      cases hkk : k prev s with
      | some res2 =>
        rw [hkk] at h
        injection h with h2
        subst h2
        exact hk prev s hsub hkk
      | none =>
        rw [hkk] at h
        exact ih a prev s _ res hsub
          (fun p' s' hs' hb => ih (.starL a) p' s' k res hs' hk hb) h
    | optG a =>
      simp only [mrun] at h
      cases hma : mrun fuel a prev s k with
      | some res2 =>
        rw [hma] at h
        injection h with h2
        subst h2
        exact ih a prev s k _ hsub hk hma
      | none =>
        rw [hma] at h
        exact hk prev s hsub h
    | bnd =>
      simp only [mrun] at h
      split at h
      · exact hk prev s hsub h
      · cases h
    | bos =>
      simp only [mrun] at h
      cases prev with
      | none => exact hk none s hsub h
      | some c => cases h
    | eos =>
      simp only [mrun] at h
      split at h
      · exact hk prev s hsub h
      · cases h

theorem matchHere_ws_none (r : RE) (prev : Option Char) (s : List Char)
    (hs : s.all isPyWs = true) (hprev : ∀ c, prev = some c → isPyWs c = true)
    (hok : okWs r = false) : matchHere r prev s = none :=
  mrun_ws_none _ r prev s _ hs hprev hok

theorem matchHere_suffix (r : RE) (prev : Option Char) (s res : List Char)
    (h : matchHere r prev s = some res) : res <:+ s :=
  mrun_suffix s _ r prev s _ res (List.suffix_refl s)
    (fun p' s' hs' hk => by injection hk with h2; rw [← h2]; exact hs') h

/-- A pattern that cannot match whitespace leaves whitespace-only input
    untouched under substitution. -/
theorem subAux_ws_id :
    ∀ (fuel : Nat) (r : RE) (repl : List Char) (prev : Option Char) (s : List Char),
      s.all isPyWs = true →
      (∀ c, prev = some c → isPyWs c = true) →
      okWs r = false →
      subAux fuel r repl prev s = s := by
  intro fuel
  induction fuel with
  | zero => intro r repl prev s _ _ _; rfl
  | succ fuel ih =>
    intro r repl prev s hs hprev hok
    simp only [subAux, matchHere_ws_none r prev s hs hprev hok]
    cases s with
    | nil => rfl
    | cons c rest =>
      dsimp only
      simp only [List.all_cons, Bool.and_eq_true] at hs
      rw [ih r repl (some c) rest hs.2 (fun d hd => by cases hd; exact hs.1) hok]

/-- Substitution with whitespace-only replacement preserves
    whitespace-only-ness. -/
theorem subAux_ws_preserve :
    ∀ (fuel : Nat) (r : RE) (repl : List Char) (prev : Option Char) (s : List Char),
      s.all isPyWs = true → repl.all isPyWs = true →
      (subAux fuel r repl prev s).all isPyWs = true := by
  intro fuel
  induction fuel with
  | zero => intro r repl prev s hs _; exact hs
  | succ fuel ih =>
    intro r repl prev s hs hrepl
    simp only [subAux]
    cases hm : matchHere r prev s with
    | some rest =>
      dsimp only
      have hrest : rest.all isPyWs = true :=
        all_of_suffix (matchHere_suffix r prev s rest hm) hs
      by_cases hlen : rest.length = s.length
      · rw [if_pos hlen]
        cases s with
        | nil => exact hrepl
        | cons c t =>
          simp only [List.all_cons, Bool.and_eq_true] at hs
          simp only [List.all_append, List.all_cons, hrepl, hs.1,
            Bool.true_and, Bool.and_eq_true]
          exact ih r repl (some c) t hs.2 hrepl
      · rw [if_neg hlen]
        simp only [List.all_append, hrepl, Bool.true_and]
        exact ih r repl _ rest hrest hrepl
    | none =>
      dsimp only
      cases s with
      | nil => rfl
      | cons c t =>
        simp only [List.all_cons, Bool.and_eq_true] at hs
        simp only [List.all_cons, hs.1, Bool.true_and]
        exact ih r repl (some c) t hs.2 hrepl

theorem reSub_ws_id (r : RE) (repl s : String)
    (hs : wsOnly s = true) (hok : okWs r = false) : reSub r repl s = s := by
  obtain ⟨l⟩ := s
  unfold wsOnly at hs
  unfold reSub
  rw [subAux_ws_id _ r repl.data none l hs (fun c h => by cases h) hok]

theorem reSub_ws_preserve (r : RE) (repl s : String)
    (hs : wsOnly s = true) (hrepl : wsOnly repl = true) :
    wsOnly (reSub r repl s) = true := by
  obtain ⟨l⟩ := s
  unfold wsOnly at *
  unfold reSub
  exact subAux_ws_preserve _ r repl.data none l hs hrepl

end Re

namespace PyStr

theorem pyStrip_ws (s : String) (hs : wsOnly s = true) : pyStrip s = "" := by
  obtain ⟨l⟩ := s
  unfold wsOnly at hs
  unfold pyStrip stripChars
  have h1 : l.dropWhile isPyWs = [] := by
    rw [List.dropWhile_eq_nil_iff]
    rw [List.all_eq_true] at hs
    exact fun x hx => hs x hx
  rw [h1]
  rfl

end PyStr

namespace Fuzz

theorem roundHE_zero (den : Nat) (h : 0 < den) : roundHE 0 den = 0 := by
  unfold roundHE
  simp [Nat.zero_div, Nat.zero_mod, h]

theorem lev2_nil_left (b : List Char) : lev2 [] b = b.length := by
  simp only [lev2, List.foldl_nil]
  rw [List.range_succ]
  simp [List.getLastD_concat]

theorem lev2_nil_right (a : List Char) : lev2 a [] = a.length := by
  simp only [lev2]
  have haux : ∀ (l : List Char) (d : Nat),
      l.foldl (fun row c =>
        match row with
        | [] => []
        | d0 :: _ => (d0 + 1) :: lev2.go c [] row (d0 + 1)) [d] = [d + l.length] := by
    intro l
    induction l with
    | nil => intro d; simp
    | cons c t ih =>
      intro d
      simp only [List.foldl_cons, List.length_cons]
      have h2 : d + 1 + t.length = d + (t.length + 1) := by omega
      exact h2 ▸ ih (d + 1)
  rw [show List.range (List.length ([] : List Char) + 1) = [0] from rfl]
  rw [haux a 0]
  simp

theorem fuzzScore_empty_left (v : String) (hv : v ≠ "") : fuzzScore "" v = 0 := by
  unfold fuzzScore
  have hbe : (("" : String) == v) = false := by
    rw [beq_eq_false_iff_ne]
    exact fun h => hv h.symm
  rw [hbe]
  have hd : ("" : String).data = [] := rfl
  simp only [Bool.false_eq_true, if_false, hd, List.length_nil, Nat.zero_add,
    lev2_nil_left, Nat.sub_self, Nat.mul_zero]
  have hlen : v.data.length ≠ 0 := by
    intro h0
    apply hv
    cases v with
    | mk l =>
      cases l with
      | nil => rfl
      | cons a t => simp at h0
  have hbe2 : (v.data.length == 0) = false := beq_eq_false_iff_ne.mpr hlen
  rw [hbe2]
  simp only [Bool.false_eq_true, if_false]
  exact roundHE_zero _ (Nat.pos_of_ne_zero hlen)

theorem fuzzScore_empty_right (v : String) (hv : v ≠ "") : fuzzScore v "" = 0 := by
  unfold fuzzScore
  have hbe : (v == ("" : String)) = false := beq_eq_false_iff_ne.mpr hv
  rw [hbe]
  have hd : ("" : String).data = [] := rfl
  simp only [Bool.false_eq_true, if_false, hd, List.length_nil, Nat.add_zero,
    lev2_nil_right, Nat.sub_self, Nat.mul_zero]
  have hlen : v.data.length ≠ 0 := by
    intro h0
    apply hv
    cases v with
    | mk l =>
      cases l with
      | nil => rfl
      | cons a t => simp at h0
  have hbe2 : (v.data.length == 0) = false := beq_eq_false_iff_ne.mpr hlen
  rw [hbe2]
  simp only [Bool.false_eq_true, if_false]
  exact roundHE_zero _ (Nat.pos_of_ne_zero hlen)

end Fuzz

namespace EnhancedGeniusClient

open Re PyStr Fuzz

theorem foldl_reSub_ws_id (pats : List RE) (s : String)
    (hok : ∀ p ∈ pats, okWs p = false) (hs : wsOnly s = true) :
    pats.foldl (fun acc pat => reSub pat "" acc) s = s := by
  induction pats with
  | nil => rfl
  | cons p rest ih =>
    simp only [List.foldl_cons]
    rw [reSub_ws_id p "" s hs (hok p (List.mem_cons_self p rest))]
    exact ih (fun q hq => hok q (List.mem_cons_of_mem p hq))

theorem foldl_censor_ws_id (prs : List (RE × String)) (s : String)
    (hok : ∀ pr ∈ prs, okWs pr.1 = false) (hs : wsOnly s = true) :
    prs.foldl (fun acc pr => reSub pr.1 pr.2 acc) s = s := by
  induction prs with
  | nil => rfl
  | cons p rest ih =>
    simp only [List.foldl_cons]
    rw [reSub_ws_id p.1 p.2 s hs (hok p (List.mem_cons_self p rest))]
    exact ih (fun q hq => hok q (List.mem_cons_of_mem p hq))

/-- None of the 21 cleaning patterns nor the 5 censorship patterns can fire
    inside whitespace-only input (each needs a parenthesis, hyphen, letter or
    word boundary), so cleaning reduces a whitespace-only title to "". -/
theorem clean_title_ws (title : String) (h : wsOnly title = true) :
    clean_title_for_search title = "" := by
  simp only [clean_title_for_search]
  rw [foldl_reSub_ws_id suffixes_to_remove title (by decide) h]
  rw [foldl_censor_ws_id censorshipSubs title (by decide) h]
  unfold collapseWs
  exact pyStrip_ws _ (reSub_ws_preserve wsPlus " " title h (by decide))

theorem normTitle_ws (t : String) (h : wsOnly t = true) : normTitle t = "" := by
  unfold normTitle
  rw [clean_title_ws t h]
  rfl

theorem bestTitleSimilarity_empty_left (otn : String) (A : Nat)
    (h1 : otn ≠ "") (h2 : removeFeatInfo otn ≠ "")
    (h3 : remove_articles otn ≠ "") (h4 : remove_all_parentheticals otn ≠ "") :
    bestTitleSimilarity "" otn A = 0 := by
  simp only [bestTitleSimilarity]
  rw [show removeFeatInfo "" = "" from rfl, show remove_articles "" = "" from rfl,
    show remove_all_parentheticals "" = "" from rfl]
  rw [fuzzScore_empty_left otn h1, fuzzScore_empty_left _ h2,
    fuzzScore_empty_left _ h3, fuzzScore_empty_left _ h4]
  simp

theorem bestTitleSimilarity_empty_right (gtn : String) (A : Nat)
    (h1 : gtn ≠ "") (h2 : removeFeatInfo gtn ≠ "")
    (h3 : remove_articles gtn ≠ "") (h4 : remove_all_parentheticals gtn ≠ "") :
    bestTitleSimilarity gtn "" A = 0 := by
  simp only [bestTitleSimilarity]
  rw [show removeFeatInfo "" = "" from rfl, show remove_articles "" = "" from rfl,
    show remove_all_parentheticals "" = "" from rfl]
  rw [fuzzScore_empty_right gtn h1, fuzzScore_empty_right _ h2,
    fuzzScore_empty_right _ h3, fuzzScore_empty_right _ h4]
  simp

end EnhancedGeniusClient

namespace EnhancedGeniusClient

open Re PyStr Fuzz

/-- C9 counterexample: when BOTH titles are whitespace-only they normalize to
    the empty string, and `fuzz.ratio` scores two equal (empty) strings 100
    (python-Levenshtein's equal-strings shortcut; plain difflib likewise
    yields 1.0), so the title gate passes and matching artists make
    `_is_good_match` return True — "empty/whitespace-only titles never match"
    fails. -/
theorem C9_ws_both_empty_counterexample :
    wsOnly " " = true ∧
    is_good_match " " "x" " " "x" = true ∧
    is_good_match "" "x" "" "x" = true :=
  ⟨by decide, by decide, by decide⟩

/-- C9 (amended): a whitespace-only (or empty) title never matches a title
    with actual content: if one side's title is whitespace-only and the other
    side's normalized title and its feat-stripped, article-stripped and
    parenthetical-stripped variants are all nonempty, `_is_good_match` returns False in both
    argument orders, for every pair of artist strings. (When both titles are
    whitespace-only the similarity is 100 and the artist gate alone decides —
    see the counterexample.) -/
theorem C9_ws_only_title_no_match (gt ga t ta : String)
    (hws : wsOnly gt = true)
    (h1 : normTitle t ≠ "")
    (h2 : removeFeatInfo (normTitle t) ≠ "")
    (h3 : remove_articles (normTitle t) ≠ "")
    (h4 : remove_all_parentheticals (normTitle t) ≠ "") :
    is_good_match gt ga t ta = false ∧ is_good_match t ta gt ga = false := by
  have hnorm : normTitle gt = "" := normTitle_ws gt hws
  constructor
  · simp only [is_good_match, hnorm]
    rw [bestTitleSimilarity_empty_left (normTitle t) _ h1 h2 h3 h4]
    simp
  · simp only [is_good_match, hnorm]
    rw [bestTitleSimilarity_empty_right (normTitle t) _ h1 h2 h3 h4]
    simp

/-- Witness for C9: the whitespace-only candidate title " " never matches
    the real title "song", in either direction. -/
theorem C9_ws_only_title_no_match_witness :
    wsOnly " " = true ∧ normTitle "song" ≠ "" ∧
    (is_good_match " " "x" "song" "y" = false ∧
     is_good_match "song" "y" " " "x" = false) :=
  ⟨by decide, by decide,
    C9_ws_only_title_no_match " " "x" "song" "y" (by decide) (by decide)
      (by decide) (by decide) (by decide)⟩

end EnhancedGeniusClient
